import Mathlib

/-!
Verification of the bank-statement-converter core pipeline
(`backend/utils/data_processor.py` and `backend/utils/pdf_parser.py`)
against its natural-language specification.

Strings are modelled as `List Char`; Python floats as `ℚ` (the numeric
tokens the pipeline handles are finite decimals; `inf`/`nan` literals and
binary-float rounding artefacts are outside the model, and Python's
banker's rounding at exact ties is modelled as round-half-up).
Python `dict` rows are modelled as structures with `Option` fields;
a raised exception is an `Except.error`.
-/

namespace BankConv

abbrev Str := List Char

def ofStr (x : String) : Str := x.toList

/-- Python whitespace for `str.split`/`str.strip` (ASCII range). -/
def isPySpace (c : Char) : Bool :=
  c = ' ' || c = '\t' || c = '\n' || c = '\r' || c = '\x0b' || c = '\x0c'

/-- Python `str.strip()`. -/
def pyStrip (l : Str) : Str :=
  ((l.dropWhile isPySpace).reverse.dropWhile isPySpace).reverse

/-- Python `str.split()` (no argument), fuelled so that the recursion
is structural: skip a whitespace run, take a word, repeat. -/
def pySplitF : ℕ → Str → List Str
  | _, [] => []
  | 0, _ :: _ => []
  | f + 1, c :: cs =>
    if isPySpace c then pySplitF f cs
    else (c :: cs).takeWhile (fun x => !isPySpace x)
      :: pySplitF f (cs.dropWhile (fun x => !isPySpace x))

/-- Python `str.split()` (no argument): split on whitespace runs,
discarding empty pieces.  The string's length is always enough fuel. -/
def pySplit (l : Str) : List Str := pySplitF l.length l

/-- Python `' '.join(ws)`. -/
def joinSp : List Str → Str
  | [] => []
  | [w] => w
  | w :: ws => w ++ ' ' :: joinSp ws

/-- `DataProcessor.clean_description`: collapse whitespace, strip,
truncate to `[:97] + '...'` when longer than 100 characters. -/
def clean_description (d : Str) : Str :=
  let d1 := pyStrip (joinSp (pySplit d))
  if 100 < d1.length then d1.take 97 ++ ['.', '.', '.'] else d1

/-- The ordered category table of `DataProcessor.categorize_transaction`
(Python dicts iterate in insertion order). -/
def categories : List (Str × List Str) := [
  (ofStr "SALARY", [ofStr "salary", ofStr "wage", ofStr "stipend", ofStr "payroll"]),
  (ofStr "TRANSFER", [ofStr "transfer", ofStr "trf", ofStr "neft", ofStr "rtgs", ofStr "imps"]),
  (ofStr "WITHDRAWAL", [ofStr "withdrawal", ofStr "atm", ofStr "cash"]),
  (ofStr "DEPOSIT", [ofStr "deposit", ofStr "cheque", ofStr "check"]),
  (ofStr "UTILITY", [ofStr "electricity", ofStr "water", ofStr "gas", ofStr "phone", ofStr "internet"]),
  (ofStr "FOOD", [ofStr "restaurant", ofStr "food", ofStr "cafe", ofStr "grocery", ofStr "supermarket"]),
  (ofStr "ENTERTAINMENT", [ofStr "movie", ofStr "cinema", ofStr "entertainment", ofStr "games"]),
  (ofStr "HEALTHCARE", [ofStr "hospital", ofStr "clinic", ofStr "pharmacy", ofStr "doctor", ofStr "medical"]),
  (ofStr "SHOPPING", [ofStr "shopping", ofStr "mall", ofStr "store", ofStr "retail"]),
  (ofStr "TRANSPORT", [ofStr "uber", ofStr "taxi", ofStr "petrol", ofStr "fuel", ofStr "transport"]),
  (ofStr "SUBSCRIPTION", [ofStr "subscription", ofStr "netflix", ofStr "spotify", ofStr "prime"])]

/-- `DataProcessor.categorize_transaction`: first category (in table
order) one of whose keywords is a substring of the lower-cased
description; `'OTHER'` if none. -/
def categorize_transaction (description : Str) : Str :=
  let dl := description.map Char.toLower
  match categories.find? (fun p => p.2.any (fun kw => decide (kw <:+: dl))) with
  | some p => p.1
  | none => ofStr "OTHER"

/-- A raw transaction candidate (a Python dict; missing key = `none`). -/
structure RawTxn where
  date : Option Str
  description : Option Str
  amount : Option ℚ
  balance : Option ℚ
  ttype : Option Str
deriving DecidableEq

/-- A processed transaction, the dict built by
`DataProcessor.validate_and_clean_transaction`. -/
structure ProcessedTxn where
  date : Str
  description : Str
  amount : ℚ
  ttype : Str
  balance : Option ℚ
  category : Str
  raw_amount : ℚ
  row_num : ℕ
deriving DecidableEq

/-- One entry of `self.validation_errors`. -/
structure VError where
  index : ℕ
  error : Str
  transaction : RawTxn
deriving DecidableEq

/-- `DataProcessor.validate_and_clean_transaction`.  `raise ValueError`
is `Except.error`; Python truthiness of the string fields is `= []`
after the relevant coercion. -/
def validate_and_clean_transaction (t : RawTxn) (idx : ℕ) : Except Str ProcessedTxn :=
  let _trans_type0 := t.ttype.getD (ofStr "CREDIT")
  if t.date = none ∨ t.date = some [] then .error (ofStr "Missing date")
  else if t.description = none ∨ t.description = some []
      ∨ (t.description.map pyStrip) = some [] then .error (ofStr "Missing description")
  else match t.date, t.description, t.amount with
    | some dt, some ds, some am =>
      let description := clean_description ds
      let amount : ℚ := am
      let balance : Option ℚ := match t.balance with
        | some b => if b = 0 then none else some b
        | none => none
      let trans_type := if amount < 0 then ofStr "DEBIT" else ofStr "CREDIT"
      let category := categorize_transaction description
      .ok { date := dt, description := description, amount := |amount|,
            ttype := trans_type, balance := balance, category := category,
            raw_amount := amount, row_num := idx + 2 }
    | _, _, _ => .error (ofStr "Missing amount")

/-- The `for idx, transaction in enumerate(...)` loop of
`DataProcessor.process_transactions`, started at index `i`: successes
in order, errors in order. -/
def processLoop : ℕ → List RawTxn → List ProcessedTxn × List VError
  | _, [] => ([], [])
  | i, t :: ts =>
    let rest := processLoop (i + 1) ts
    match validate_and_clean_transaction t i with
    | .ok p => (p :: rest.1, rest.2)
    | .error e => (rest.1, { index := i, error := e, transaction := t } :: rest.2)

/-- The summary dict of `DataProcessor.generate_summary`. -/
structure Summary where
  total_transactions : ℕ
  total_credits : ℚ
  total_debits : ℚ
  net_amount : ℚ
  opening_balance : Option ℚ
  closing_balance : Option ℚ
deriving DecidableEq

/-- Python `round(x, 2)`: the nearest multiple of 1/100 (ties modelled
as half-up), i.e. `round (x * 100) / 100`.  Written with `mkRat` and
`Int.floor` (`round (x * 100) = ⌊(200 * num + den) / (2 * den)⌋`) so
that the kernel can evaluate it; `round2_eq` below restates it in the
usual form. -/
def round2 (x : ℚ) : ℚ := mkRat ⌊mkRat (200 * x.num + x.den) (2 * x.den)⌋ 100

/-- `DataProcessor.generate_summary`, as a function of
`self.processed_transactions`. -/
def generate_summary (ps : List ProcessedTxn) : Summary :=
  if ps = [] then ⟨0, 0, 0, 0, none, none⟩
  else
    let credits := ((ps.filter (fun t => t.ttype = ofStr "CREDIT")).map (·.amount)).sum
    let debits := ((ps.filter (fun t => t.ttype = ofStr "DEBIT")).map (·.amount)).sum
    let opening : Option ℚ := match ps.head? with
      | some f => match f.balance with
        | some b => if b = 0 then none else some b
        | none => none
      | none => none
    let closing : Option ℚ := match ps.getLast? with
      | some f => match f.balance with
        | some b => if b = 0 then none else some b
        | none => none
      | none => none
    ⟨ps.length, round2 credits, round2 debits, round2 (credits - debits), opening, closing⟩

/-- The instance state of a `DataProcessor`. -/
structure DPState where
  processed_transactions : List ProcessedTxn
  validation_errors : List VError
deriving DecidableEq

/-- The result envelope of `DataProcessor.process_transactions`. -/
structure ProcessResult where
  status : Str
  transactions : List ProcessedTxn
  total_processed : ℕ
  total_errors : ℕ
  validation_errors : List VError
  summary : Summary
deriving DecidableEq

/-- `DataProcessor.process_transactions`: resets both instance lists
(lines 13-14), so the incoming state is dead; then runs the loop and
builds the envelope. -/
def process_transactions (_s : DPState) (ts : List RawTxn) : DPState × ProcessResult :=
  let r := processLoop 0 ts
  let s' : DPState := { processed_transactions := r.1, validation_errors := r.2 }
  (s', { status := ofStr "success", transactions := r.1,
         total_processed := r.1.length, total_errors := r.2.length,
         validation_errors := r.2, summary := generate_summary r.1 })

/-! ## PDF parser (`backend/utils/pdf_parser.py`) -/

def digitVal (c : Char) : ℕ :=
  match c with
  | '0' => 0 | '1' => 1 | '2' => 2 | '3' => 3 | '4' => 4
  | '5' => 5 | '6' => 6 | '7' => 7 | '8' => 8 | '9' => 9
  | _ => 10

def isDigitCh (c : Char) : Bool := decide (digitVal c < 10)

def natOfDigits (s : Str) : ℕ := s.foldl (fun a c => 10 * a + digitVal c) 0

/-- Python `float(str)` on the decimal forms the pipeline produces:
optional sign, then `digits[.digits*]` or `.digits+`, with surrounding
whitespace allowed; the value `±(intPart.frac)` is built with `mkRat`
so the kernel can evaluate it.  (`inf`/`nan`, exponents and `_`
separators are outside the model.) -/
def pyFloat (s0 : Str) : Option ℚ :=
  let s := pyStrip s0
  let sign : ℤ := match s with | '-' :: _ => -1 | _ => 1
  let s1 : Str := match s with | '-' :: r => r | '+' :: r => r | _ => s
  let intPart := s1.takeWhile isDigitCh
  let rest := s1.dropWhile isDigitCh
  match rest with
  | [] => if intPart = [] then none else some (mkRat (sign * natOfDigits intPart) 1)
  | '.' :: frac =>
    if frac.all isDigitCh ∧ (intPart ≠ [] ∨ frac ≠ []) then
      some (mkRat (sign * (natOfDigits intPart * 10 ^ frac.length + natOfDigits frac))
              (10 ^ frac.length))
    else none
  | _ => none

/-- `PDFParser.parse_amount`: `None`/empty gives `None`; strip commas
and whitespace; a `'-'` anywhere negates the value of the string with
all `'-'` removed; round to 2 decimals; unparseable gives `None`. -/
def parse_amount (a : Option Str) : Option ℚ :=
  match a with
  | none => none
  | some s0 =>
    if s0 = [] then none
    else
      let s := pyStrip (s0.filter (fun c => c != ','))
      if s.contains '-' then
        match pyFloat (s.filter (fun c => c != '-')) with
        | some v => some (round2 (-v))
        | none => none
      else (pyFloat s).map round2

inductive DField where
  | day | mon | year | monAbbr | monFull
deriving DecidableEq

structure DFormat where
  f1 : DField
  f2 : DField
  f3 : DField
  sep : Char
deriving DecidableEq

/-- The ordered `date_formats` list of `PDFParser.parse_date`; each
strptime format string (`'%d-%m-%Y'`, ..., `'%d/%B/%Y'`) is recorded as
its three fields plus its separator character. -/
def date_formats : List DFormat := [
  ⟨.day, .mon, .year, '-'⟩, ⟨.day, .mon, .year, '/'⟩,
  ⟨.mon, .day, .year, '-'⟩, ⟨.mon, .day, .year, '/'⟩,
  ⟨.year, .mon, .day, '-'⟩, ⟨.year, .mon, .day, '/'⟩,
  ⟨.day, .monAbbr, .year, '-'⟩, ⟨.day, .monAbbr, .year, '/'⟩,
  ⟨.monAbbr, .day, .year, '-'⟩, ⟨.monAbbr, .day, .year, '/'⟩,
  ⟨.day, .monFull, .year, '-'⟩, ⟨.day, .monFull, .year, '/'⟩]

def monAbbrs : List Str :=
  [ofStr "jan", ofStr "feb", ofStr "mar", ofStr "apr", ofStr "may", ofStr "jun",
   ofStr "jul", ofStr "aug", ofStr "sep", ofStr "oct", ofStr "nov", ofStr "dec"]

def monFulls : List Str :=
  [ofStr "january", ofStr "february", ofStr "march", ofStr "april", ofStr "may",
   ofStr "june", ofStr "july", ofStr "august", ofStr "september", ofStr "october",
   ofStr "november", ofStr "december"]

def lookupName : List Str → ℕ → Str → Option ℕ
  | [], _, _ => none
  | n :: ns, i, s => if n = s then some i else lookupName ns (i + 1) s

/-- One strptime field, as matched (case-insensitively for month names)
by CPython's `_strptime` regex fragments against a whole
separator-delimited part: `%d` is 1-2 digits valuing 1..31, `%m` 1-2
digits valuing 1..12, `%Y` exactly 4 digits, `%b`/`%B` a month name. -/
def parseField (f : DField) (s : Str) : Option ℕ :=
  match f with
  | .day =>
    if s ≠ [] ∧ s.length ≤ 2 ∧ s.all isDigitCh ∧ 1 ≤ natOfDigits s ∧ natOfDigits s ≤ 31
    then some (natOfDigits s) else none
  | .mon =>
    if s ≠ [] ∧ s.length ≤ 2 ∧ s.all isDigitCh ∧ 1 ≤ natOfDigits s ∧ natOfDigits s ≤ 12
    then some (natOfDigits s) else none
  | .year => if s.length = 4 ∧ s.all isDigitCh then some (natOfDigits s) else none
  | .monAbbr => lookupName monAbbrs 1 (s.map Char.toLower)
  | .monFull => lookupName monFulls 1 (s.map Char.toLower)

def isLeap (y : ℕ) : Bool := (y % 4 = 0 && y % 100 != 0) || y % 400 = 0

def daysInMonth (y m : ℕ) : ℕ :=
  if m = 2 then (if isLeap y then 29 else 28)
  else if m = 4 ∨ m = 6 ∨ m = 9 ∨ m = 11 then 30 else 31

/-- `datetime.strptime(s, fmt)` for one of the 12 formats: split on the
separator (the fields cannot match it), require exactly three parts,
match each, then let the `datetime` constructor validate the calendar
date (`1 <= year <= 9999`, day within the month). -/
def tryFormat (f : DFormat) (s : Str) : Option (ℕ × ℕ × ℕ) :=
  match s.splitOn f.sep with
  | [p1, p2, p3] =>
    match parseField f.f1 p1, parseField f.f2 p2, parseField f.f3 p3 with
    | some v1, some v2, some v3 =>
      let fv := [(f.f1, v1), (f.f2, v2), (f.f3, v3)]
      match fv.find? (fun x => decide (x.1 = .year)),
            fv.find? (fun x => decide (x.1 = .mon ∨ x.1 = .monAbbr ∨ x.1 = .monFull)),
            fv.find? (fun x => decide (x.1 = .day)) with
      | some xy, some xm, some xd =>
        if 1 ≤ xy.2 ∧ xy.2 ≤ 9999 ∧ 1 ≤ xm.2 ∧ xm.2 ≤ 12 ∧ 1 ≤ xd.2 ∧ xd.2 ≤ daysInMonth xy.2 xm.2
        then some (xy.2, xm.2, xd.2) else none
      | _, _, _ => none
    | _, _, _ => none
  | _ => none

def digitCh : ℕ → Char :=
  fun n => match n with
  | 0 => '0' | 1 => '1' | 2 => '2' | 3 => '3' | 4 => '4'
  | 5 => '5' | 6 => '6' | 7 => '7' | 8 => '8' | _ => '9'

def pad2 (n : ℕ) : Str := [digitCh (n / 10), digitCh (n % 10)]

def pad4 (n : ℕ) : Str :=
  [digitCh (n / 1000), digitCh (n / 100 % 10), digitCh (n / 10 % 10), digitCh (n % 10)]

/-- `strftime('%Y-%m-%d')`. -/
def isoStr (y m d : ℕ) : Str := pad4 y ++ '-' :: pad2 m ++ '-' :: pad2 d

def tryFormats : List DFormat → Str → Option (ℕ × ℕ × ℕ)
  | [], _ => none
  | f :: fs, s =>
    match tryFormat f (pyStrip s) with
    | some r => some r
    | none => tryFormats fs s

/-- `PDFParser.parse_date`: first matching format wins; result is the
ISO string; `None` when no format matches. -/
def parse_date (s : Str) : Option Str :=
  (tryFormats date_formats s).map (fun v => isoStr v.1 v.2.1 v.2.2)

def monAbbrsCap : List Str :=
  [ofStr "Jan", ofStr "Feb", ofStr "Mar", ofStr "Apr", ofStr "May", ofStr "Jun",
   ofStr "Jul", ofStr "Aug", ofStr "Sep", ofStr "Oct", ofStr "Nov", ofStr "Dec"]

def monFullsCap : List Str :=
  [ofStr "January", ofStr "February", ofStr "March", ofStr "April", ofStr "May",
   ofStr "June", ofStr "July", ofStr "August", ofStr "September", ofStr "October",
   ofStr "November", ofStr "December"]

/-- `datetime.strftime` for the five field kinds the supported format
patterns use (`%d`/`%m` zero-padded, `%Y` four digits for years
1000-9999, `%b`/`%B` C-locale month names). -/
def fieldStr (f : DField) (y m d : ℕ) : Str :=
  match f with
  | .day => pad2 d
  | .mon => pad2 m
  | .year => pad4 y
  | .monAbbr => (monAbbrsCap.getD (m - 1) (ofStr ""))
  | .monFull => (monFullsCap.getD (m - 1) (ofStr ""))

/-- Formatting a date in one of the supported patterns
(`datetime(y, m, d).strftime(fmt)`). -/
def formatDate (f : DFormat) (y m d : ℕ) : Str :=
  fieldStr f.f1 y m d ++ f.sep :: fieldStr f.f2 y m d ++ f.sep :: fieldStr f.f3 y m d

/-! ### Row and text extraction -/

abbrev Row := List (Option Str)

structure Page where
  text : Option Str
  tables : List (List Row)
deriving DecidableEq

structure Document where
  pages : List Page
deriving DecidableEq

/-- The instance state of a `PDFParser`. -/
structure PPState where
  transactions : List RawTxn
  bank_type : Option Str
  statement_date_range : Option Str
deriving DecidableEq

def truthyStr : Option Str → Bool
  | some v => !v.isEmpty
  | none => false

def truthyAmt : Option ℚ → Bool
  | some a => decide (a ≠ 0)
  | none => false

/-- `str(cell).strip() if cell else None`, the per-cell coercion of
`PDFParser.parse_row` (a `None` or empty cell is falsy). -/
def pyCell (c : Option Str) : Option Str :=
  match c with
  | some v => if v = [] then none else some (pyStrip v)
  | none => none

/-- `PDFParser.parse_row`. -/
def parse_row (row : Row) : Option RawTxn :=
  if row.length < 3 then none
  else
    let date_str := pyCell (row.getD 0 none)
    let description := pyCell (row.getD 1 none)
    let amount_str := pyCell (row.getD 2 none)
    let balance_str := if 3 < row.length then pyCell (row.getD 3 none) else none
    if ¬ (truthyStr date_str ∧ truthyStr description ∧ truthyStr amount_str) then none
    else match date_str, description, amount_str with
      | some dts, some desc, some _ =>
        let date := parse_date dts
        let amount := parse_amount amount_str
        let balance := if truthyStr balance_str then parse_amount balance_str else none
        match date, amount with
        | some dv, some av =>
          if dv = [] ∨ av = 0 then none
          else some { date := some dv, description := some desc, amount := some av,
                      balance := balance,
                      ttype := some (if av < 0 then ofStr "DEBIT" else ofStr "CREDIT") }
        | _, _ => none
      | _, _, _ => none

/-- `PDFParser.extract_from_table`: skip the header row, keep rows with
at least 3 cells that `parse_row` accepts. -/
def extract_from_table (s : PPState) (table : List Row) : PPState :=
  (table.drop 1).foldl (fun st row =>
    if row ≠ [] ∧ 3 ≤ row.length then
      match parse_row row with
      | some t => { st with transactions := st.transactions ++ [t] }
      | none => st
    else st) s

/-! The free-text pattern
`(\d{1,2}[\-\/]\d{1,2}[\-\/]\d{2,4})\s+(.+?)\s+([\d,]+\.?\d*)\s+([\d,]+\.?\d*)`
of `PDFParser.extract_from_text`, as a backtracking matcher whose
alternatives are listed in the engine's preference order. -/

def isSepCh (c : Char) : Bool := c = '-' || c = '/'

def isAmtCh (c : Char) : Bool := isDigitCh c || c = ','

def notNL (c : Char) : Bool := c != '\n'

abbrev Alt := Str × Str

/-- Greedy `p{lo,hi}`: longest first. -/
def repGreedy (p : Char → Bool) (lo hi : ℕ) (s : Str) : List Alt :=
  let mx := min hi (s.takeWhile p).length
  if mx < lo then []
  else (List.range (mx + 1 - lo)).map (fun i => (s.take (mx - i), s.drop (mx - i)))

/-- Lazy `p+?`: shortest first. -/
def plusLazy (p : Char → Bool) (s : Str) : List Alt :=
  (List.range (s.takeWhile p).length).map (fun i => (s.take (i + 1), s.drop (i + 1)))

/-- Greedy `c?`. -/
def optCh (c : Char) (s : Str) : List Alt :=
  match s with
  | x :: r => if x = c then [([x], r), ([], s)] else [([], s)]
  | [] => [([], s)]

/-- A single character of a class. -/
def chCls (p : Char → Bool) (s : Str) : List Alt :=
  match s with
  | x :: r => if p x then [([x], r)] else []
  | [] => []

def mseq (a b : Str → List Alt) (s : Str) : List Alt :=
  (a s).flatMap (fun xr => (b xr.2).map (fun yr => (xr.1 ++ yr.1, yr.2)))

/-- Group 1, `\d{1,2}[\-\/]\d{1,2}[\-\/]\d{2,4}`. -/
def grpDate : Str → List Alt :=
  mseq (repGreedy isDigitCh 1 2)
    (mseq (chCls isSepCh)
      (mseq (repGreedy isDigitCh 1 2)
        (mseq (chCls isSepCh) (repGreedy isDigitCh 2 4))))

/-- Groups 3 and 4, `[\d,]+\.?\d*`. -/
def grpNum : Str → List Alt :=
  mseq (fun s => repGreedy isAmtCh 1 s.length s)
    (mseq (optCh '.') (fun s => repGreedy isDigitCh 0 s.length s))

def wsPlus : Str → List Alt := fun s => repGreedy isPySpace 1 s.length s

/-- One anchored attempt of the whole pattern at the start of `s`:
the first complete match in backtracking order, with its four groups
and the remaining input. -/
def matchOnce (s : Str) : Option ((Str × Str × Str × Str) × Str) :=
  ((grpDate s).flatMap (fun a1 =>
    (wsPlus a1.2).flatMap (fun a2 =>
      (plusLazy notNL a2.2).flatMap (fun a3 =>
        (wsPlus a3.2).flatMap (fun a4 =>
          (grpNum a4.2).flatMap (fun a5 =>
            (wsPlus a5.2).flatMap (fun a6 =>
              (grpNum a6.2).map (fun a7 =>
                ((a1.1, a3.1, a5.1, a7.1), a7.2))))))))).head?

/-- `re.finditer`: scan left to right, emit non-overlapping matches,
resume after each match.  Fuelled by the input length (every match
consumes at least one character). -/
def finditer : ℕ → Str → List (Str × Str × Str × Str)
  | 0, _ => []
  | _ + 1, [] => []
  | fuel + 1, s@(_ :: cs) =>
    match matchOnce s with
    | some (g, rest) => g :: finditer fuel rest
    | none => finditer fuel cs

def findMatches (s : Str) : List (Str × Str × Str × Str) := finditer (s.length + 1) s

/-- The transaction dict `PDFParser.extract_from_text` builds from one
regex match `(date_str, description, amount, balance)`; `type` is
`'DEBIT'` when the substring `'DR'` occurs in the upper-cased raw
description. -/
def textTxn (g : Str × Str × Str × Str) : RawTxn :=
  { date := parse_date g.1,
    description := some (pyStrip g.2.1),
    amount := parse_amount (some g.2.2.1),
    balance := parse_amount (some g.2.2.2),
    ttype := some (if (ofStr "DR") <:+: (g.2.1.map Char.toUpper)
                   then ofStr "DEBIT" else ofStr "CREDIT") }

/-- `PDFParser.extract_from_text` (a `None` text raises inside the
`try`, leaving the state unchanged); a match is kept only when its
parsed date and amount are truthy. -/
def extract_from_text (s : PPState) (text : Option Str) : PPState :=
  match text with
  | none => s
  | some t =>
    (findMatches t).foldl (fun st g =>
      if truthyStr (textTxn g).date ∧ truthyAmt (textTxn g).amount then
        { st with transactions := st.transactions ++ [textTxn g] }
      else st) s

/-- `PDFParser.detect_bank_type` (a missing first page or `None` text
raises, which is caught and mapped to `'GENERIC'`). -/
def detect_bank_type (s : PPState) (pdf : Document) : PPState :=
  match pdf.pages.head? with
  | none => { s with bank_type := some (ofStr "GENERIC") }
  | some pg =>
    match pg.text with
    | none => { s with bank_type := some (ofStr "GENERIC") }
    | some t =>
      let u := t.map Char.toUpper
      if (ofStr "HDFC") <:+: u then { s with bank_type := some (ofStr "HDFC") }
      else if (ofStr "ICICI") <:+: u then { s with bank_type := some (ofStr "ICICI") }
      else if (ofStr "SBI") <:+: u then { s with bank_type := some (ofStr "SBI") }
      else { s with bank_type := some (ofStr "GENERIC") }

/-- `PDFParser.extract_from_page`: tables first; then the free-text
fallback if the page had no tables or the cumulative accumulator is
still empty. -/
def extract_from_page (s : PPState) (page : Page) : PPState :=
  let s1 := page.tables.foldl extract_from_table s
  if page.tables = [] ∨ s1.transactions.length = 0 then extract_from_text s1 page.text
  else s1

/-- The result envelope of `PDFParser.parse_pdf` (the Python error dict
carries only `status`/`message`/`transactions`; the remaining fields
are modelled as `0`/`none` there). -/
structure ParseResult where
  status : Str
  transactions : List RawTxn
  bank_type : Option Str
  total_transactions : ℕ
  statement_date_range : Option Str
  message : Option Str
deriving DecidableEq

/-- `PDFParser.parse_pdf`; `none` stands for a document that fails to
open.  Note: unlike `DataProcessor.process_transactions`, this method
never resets `self.transactions`. -/
def parse_pdf (s : PPState) (doc : Option Document) : PPState × ParseResult :=
  match doc with
  | none => (s, { status := ofStr "error", transactions := [], bank_type := none,
                  total_transactions := 0, statement_date_range := none,
                  message := some (ofStr "Failed to parse PDF") })
  | some pdf =>
    let s1 := detect_bank_type s pdf
    let s2 := pdf.pages.foldl extract_from_page s1
    (s2, { status := ofStr "success", transactions := s2.transactions,
           bank_type := s2.bank_type, total_transactions := s2.transactions.length,
           statement_date_range := s2.statement_date_range, message := none })

/-! ## Concrete fixtures -/

/-- Fresh `DataProcessor()` state. -/
def dp0 : DPState := ⟨[], []⟩

/-- Fresh `PDFParser()` state. -/
def pp0 : PPState := ⟨[], none, none⟩

/-- The input of end-to-end scenario A (no `type` key). -/
def txnA : RawTxn :=
  { date := some (ofStr "01-01-2024"), description := some (ofStr "  ATM   Cash   Withdrawal "),
    amount := some (-500), balance := some 1500, ttype := none }

/-- A well-formed table row. -/
def rowA : Row :=
  [some (ofStr "01-01-2024"), some (ofStr "Grocery store"),
   some (ofStr "45.50"), some (ofStr "1000.00")]

/-- A one-page document whose single table holds a header row and `rowA`. -/
def docA : Document := ⟨[{ text := none, tables := [[[], rowA]] }]⟩

/-- The candidate `parse_row` extracts from `rowA`. -/
def txnRowA : RawTxn :=
  { date := some (ofStr "2024-01-01"), description := some (ofStr "Grocery store"),
    amount := some (mkRat 91 2), balance := some 1000, ttype := some (ofStr "CREDIT") }

/-- The processed transaction scenario A actually yields. -/
def txnAProcessed : ProcessedTxn :=
  { date := ofStr "01-01-2024", description := ofStr "ATM Cash Withdrawal",
    amount := 500, ttype := ofStr "DEBIT", balance := some 1500,
    category := ofStr "WITHDRAWAL", raw_amount := -500, row_num := 2 }

/-- The candidates the PDF parser keeps: non-null date, non-null and
nonzero amount. -/
def goodCandidate (t : RawTxn) : Prop :=
  t.date ≠ none ∧ t.amount ≠ none ∧ t.amount ≠ some 0

end BankConv

deriving instance DecidableEq for Except

namespace BankConv

/-! ## Shared facts about the validator and the loop -/

theorem validate_ok (t : RawTxn) (idx : ℕ) (p : ProcessedTxn)
    (h : validate_and_clean_transaction t idx = .ok p) :
    p.row_num = idx + 2 ∧ p.amount = |p.raw_amount| ∧
    p.ttype = (if p.raw_amount < 0 then ofStr "DEBIT" else ofStr "CREDIT") ∧
    t.date = some p.date ∧ p.date ≠ [] := by
  unfold validate_and_clean_transaction at h
  split at h
  · exact absurd h (by simp)
  next hdate =>
    split at h
    · exact absurd h (by simp)
    next hdesc =>
      split at h
      next dt ds am heq1 heq2 heq3 =>
        rw [Except.ok.injEq] at h
        subst h
        refine ⟨rfl, rfl, rfl, heq1, ?_⟩
        intro hnil
        exact hdate (Or.inr (by rw [heq1]; exact congrArg some hnil))
      · exact absurd h (by simp)

theorem processLoop_len (ts : List RawTxn) :
    ∀ i, (processLoop i ts).1.length + (processLoop i ts).2.length = ts.length := by
  induction ts with
  | nil => intro i; simp [processLoop]
  | cons t ts ih =>
    intro i
    cases hv : validate_and_clean_transaction t i with
    | ok p => simp only [processLoop, hv, List.length_cons]; have := ih (i + 1); omega
    | error e => simp only [processLoop, hv, List.length_cons]; have := ih (i + 1); omega

theorem processLoop_row_ge (ts : List RawTxn) :
    ∀ i p, p ∈ (processLoop i ts).1 → i + 2 ≤ p.row_num := by
  induction ts with
  | nil => intro i p hp; simp [processLoop] at hp
  | cons t ts ih =>
    intro i p hp
    cases hv : validate_and_clean_transaction t i with
    | ok q =>
      simp only [processLoop, hv, List.mem_cons] at hp
      rcases hp with rfl | hp
      · exact le_of_eq (validate_ok t i p hv).1.symm
      · exact le_trans (by omega) (ih (i + 1) p hp)
    | error e =>
      simp only [processLoop, hv] at hp
      exact le_trans (by omega) (ih (i + 1) p hp)

theorem processLoop_err_ge (ts : List RawTxn) :
    ∀ i e, e ∈ (processLoop i ts).2 → i ≤ e.index := by
  induction ts with
  | nil => intro i e he; simp [processLoop] at he
  | cons t ts ih =>
    intro i e he
    cases hv : validate_and_clean_transaction t i with
    | ok q =>
      simp only [processLoop, hv] at he
      exact le_trans (by omega) (ih (i + 1) e he)
    | error msg =>
      simp only [processLoop, hv, List.mem_cons] at he
      rcases he with rfl | he
      · exact le_refl _
      · exact le_trans (by omega) (ih (i + 1) e he)

theorem processLoop_counts (ts : List RawTxn) :
    ∀ i j (hj : j < ts.length),
      ((processLoop i ts).1.countP (fun p => decide (p.row_num = i + j + 2)) = 1
        ∧ (processLoop i ts).2.countP (fun e => decide (e.index = i + j)) = 0
        ∧ ∃ p, validate_and_clean_transaction (ts.get ⟨j, hj⟩) (i + j) = .ok p)
      ∨ ((processLoop i ts).1.countP (fun p => decide (p.row_num = i + j + 2)) = 0
        ∧ (processLoop i ts).2.countP (fun e => decide (e.index = i + j)) = 1
        ∧ ∃ msg, validate_and_clean_transaction (ts.get ⟨j, hj⟩) (i + j) = .error msg) := by
  induction ts with
  | nil => intro i j hj; exact absurd hj (by simp)
  | cons t ts ih =>
    intro i j hj
    cases j with
    | zero =>
      cases hv : validate_and_clean_transaction t i with
      | ok q =>
        left
        have hrest1 : (processLoop (i + 1) ts).1.countP
            (fun p => decide (p.row_num = i + 0 + 2)) = 0 := by
          rw [List.countP_eq_zero]
          intro p hp
          have := processLoop_row_ge ts (i + 1) p hp
          simp only [decide_eq_true_eq]
          omega
        have hrest2 : (processLoop (i + 1) ts).2.countP
            (fun e => decide (e.index = i + 0)) = 0 := by
          rw [List.countP_eq_zero]
          intro e he
          have := processLoop_err_ge ts (i + 1) e he
          simp only [decide_eq_true_eq]
          omega
        refine ⟨?_, ?_, q, by simpa using hv⟩
        · simp only [processLoop, hv, List.countP_cons, hrest1]
          have hq := (validate_ok t i q hv).1
          simp [hq]
        · simpa only [processLoop, hv] using hrest2
      | error msg =>
        right
        have hrest1 : (processLoop (i + 1) ts).1.countP
            (fun p => decide (p.row_num = i + 0 + 2)) = 0 := by
          rw [List.countP_eq_zero]
          intro p hp
          have := processLoop_row_ge ts (i + 1) p hp
          simp only [decide_eq_true_eq]
          omega
        have hrest2 : (processLoop (i + 1) ts).2.countP
            (fun e => decide (e.index = i + 0)) = 0 := by
          rw [List.countP_eq_zero]
          intro e he
          have := processLoop_err_ge ts (i + 1) e he
          simp only [decide_eq_true_eq]
          omega
        refine ⟨?_, ?_, msg, by simpa using hv⟩
        · simpa only [processLoop, hv] using hrest1
        · simp only [processLoop, hv, List.countP_cons, hrest2]
          simp
    | succ j =>
      have hj' : j < ts.length := by simpa using Nat.lt_of_succ_lt_succ hj
      have harith1 : i + (j + 1) + 2 = i + 1 + j + 2 := by omega
      have harith2 : i + (j + 1) = i + 1 + j := by omega
      have hget : (t :: ts).get ⟨j + 1, hj⟩ = ts.get ⟨j, hj'⟩ := rfl
      simp only [harith1, harith2, hget]
      have hmain := ih (i + 1) j hj'
      cases hv : validate_and_clean_transaction t i with
      | ok q =>
        have hqrow : ¬ (q.row_num = i + 1 + j + 2) := by
          have := (validate_ok t i q hv).1
          omega
        simpa only [processLoop, hv, List.countP_cons, decide_eq_true_eq, hqrow,
          if_false, Nat.add_zero] using hmain
      | error msg =>
        have hidx : ¬ (({ index := i, error := msg, transaction := t } : VError).index
            = i + 1 + j) := by simp; omega
        simpa only [processLoop, hv, List.countP_cons, decide_eq_true_eq, hidx,
          if_false, Nat.add_zero] using hmain

end BankConv

namespace BankConv

/-! ## More shared lemmas: rounding, amounts, extraction membership -/

theorem round2_eq (x : ℚ) : round2 x = (round (x * 100) : ℚ) / 100 := by
  have hdenpos : (0 : ℚ) < (x.den : ℚ) := by exact_mod_cast x.den_pos
  have key : (x.num : ℚ) = x * (x.den : ℚ) :=
    (div_eq_iff (ne_of_gt hdenpos)).mp (Rat.num_div_den x)
  have h1 : (mkRat (200 * x.num + x.den) (2 * x.den) : ℚ) = x * 100 + 1 / 2 := by
    rw [Rat.mkRat_eq_div]
    push_cast
    rw [div_eq_iff (by positivity), key]
    ring
  unfold round2
  rw [Rat.mkRat_eq_div, h1, round_eq]
  norm_num

theorem round2_abs_sub (x : ℚ) : |round2 x - x| ≤ 1 / 200 := by
  rw [round2_eq]
  have h := abs_sub_round (x * 100)
  have heq : (round (x * 100) : ℚ) / 100 - x = -((x * 100 - round (x * 100)) / 100) := by
    ring
  rw [heq, abs_neg, abs_div, abs_of_pos (by norm_num : (0 : ℚ) < 100)]
  calc |x * 100 - (round (x * 100) : ℚ)| / 100 ≤ (1 / 2) / 100 :=
        (div_le_div_iff_of_pos_right (by norm_num)).mpr h
    _ = 1 / 200 := by norm_num

theorem round2_nonneg (x : ℚ) (hx : 0 ≤ x) : 0 ≤ round2 x := by
  rw [round2_eq]
  apply div_nonneg _ (by norm_num)
  have h : (0 : ℤ) ≤ round (x * 100) := by
    rw [round_eq]
    apply Int.le_floor.mpr
    push_cast
    linarith
  exact_mod_cast h

theorem round2_net_bound (a b : ℚ) :
    |round2 (a - b) - (round2 a - round2 b)| ≤ 3 / 200 := by
  have h1 := round2_abs_sub (a - b)
  have h2 := round2_abs_sub a
  have h3 := round2_abs_sub b
  rw [abs_le] at h1 h2 h3 ⊢
  constructor <;> linarith [h1.1, h1.2, h2.1, h2.2, h3.1, h3.2]

theorem processLoop_amount_nonneg (ts : List RawTxn) :
    ∀ i p, p ∈ (processLoop i ts).1 → 0 ≤ p.amount := by
  induction ts with
  | nil => intro i p hp; simp [processLoop] at hp
  | cons t ts ih =>
    intro i p hp
    cases hv : validate_and_clean_transaction t i with
    | ok q =>
      simp only [processLoop, hv, List.mem_cons] at hp
      rcases hp with rfl | hp
      · rw [(validate_ok t i p hv).2.1]; exact abs_nonneg _
      · exact ih (i + 1) p hp
    | error e =>
      simp only [processLoop, hv] at hp
      exact ih (i + 1) p hp

theorem good_of_truthy (t : RawTxn) (h1 : truthyStr t.date = true)
    (h2 : truthyAmt t.amount = true) : goodCandidate t := by
  refine ⟨?_, ?_, ?_⟩
  · intro hd; rw [hd] at h1; exact absurd h1 (by simp [truthyStr])
  · intro hd; rw [hd] at h2; exact absurd h2 (by simp [truthyAmt])
  · intro hd; rw [hd] at h2; exact absurd h2 (by simp [truthyAmt])

theorem parse_row_good (row : Row) (t : RawTxn) (h : parse_row row = some t) :
    goodCandidate t := by
  unfold parse_row at h
  split at h
  · exact Option.noConfusion h
  split at h
  all_goals try dsimp only at h
  all_goals split at h
  all_goals try exact Option.noConfusion h
  all_goals split at h
  all_goals try exact Option.noConfusion h
  all_goals split at h
  all_goals try exact Option.noConfusion h
  all_goals split at h
  all_goals try exact Option.noConfusion h
  all_goals
    rename_i hcond
    rw [Option.some.injEq] at h
    subst h
    push_neg at hcond
    exact ⟨by simp, by simp,
      by simp only [ne_eq, Option.some.injEq]; exact hcond.2⟩

theorem foldl_txn_mem {α : Type} (f : PPState → α → PPState)
    (hf : ∀ s a t, t ∈ (f s a).transactions → t ∈ s.transactions ∨ goodCandidate t) :
    ∀ (l : List α) (s : PPState) (t : RawTxn),
      t ∈ (l.foldl f s).transactions → t ∈ s.transactions ∨ goodCandidate t := by
  intro l
  induction l with
  | nil => intro s t ht; exact Or.inl ht
  | cons a l ih =>
    intro s t ht
    rcases ih (f s a) t ht with h | h
    · exact hf s a t h
    · exact Or.inr h

theorem extract_from_table_mem (s : PPState) (tb : List Row) (t : RawTxn)
    (ht : t ∈ (extract_from_table s tb).transactions) :
    t ∈ s.transactions ∨ goodCandidate t := by
  unfold extract_from_table at ht
  refine foldl_txn_mem _ ?_ _ _ _ ht
  intro s' row t' ht'
  split at ht'
  · split at ht'
    next tr heq =>
      simp only [List.mem_append, List.mem_singleton] at ht'
      rcases ht' with h | rfl
      · exact Or.inl h
      · exact Or.inr (parse_row_good row t' heq)
    · exact Or.inl ht'
  · exact Or.inl ht'

theorem extract_from_text_mem (s : PPState) (tx : Option Str) (t : RawTxn)
    (ht : t ∈ (extract_from_text s tx).transactions) :
    t ∈ s.transactions ∨ goodCandidate t := by
  cases tx with
  | none => exact Or.inl ht
  | some t0 =>
    unfold extract_from_text at ht
    refine foldl_txn_mem _ ?_ _ _ _ ht
    intro s' g t' ht'
    split at ht'
    next hcond =>
      simp only [List.mem_append, List.mem_singleton] at ht'
      rcases ht' with h | rfl
      · exact Or.inl h
      · exact Or.inr (good_of_truthy _ hcond.1 hcond.2)
    · exact Or.inl ht'

theorem extract_from_page_mem (s : PPState) (pg : Page) (t : RawTxn)
    (ht : t ∈ (extract_from_page s pg).transactions) :
    t ∈ s.transactions ∨ goodCandidate t := by
  simp only [extract_from_page] at ht
  split at ht
  · rcases extract_from_text_mem _ _ _ ht with h | h
    · exact foldl_txn_mem _ (fun s a t h => extract_from_table_mem s a t h) _ _ _ h
    · exact Or.inr h
  · exact foldl_txn_mem _ (fun s a t h => extract_from_table_mem s a t h) _ _ _ ht

theorem detect_txns (s : PPState) (pdf : Document) :
    (detect_bank_type s pdf).transactions = s.transactions := by
  unfold detect_bank_type
  cases pdf.pages.head? with
  | none => rfl
  | some pg =>
    dsimp only
    cases pg.text with
    | none => rfl
    | some t0 =>
      dsimp only
      split_ifs <;> rfl

/-! ## C1: invariants of a processed transaction -/

/-- **C1.** Every transaction accepted by
`DataProcessor.validate_and_clean_transaction` satisfies
`amount = |raw_amount|`, has `type = 'DEBIT'` exactly when
`raw_amount < 0` (and `'CREDIT'` otherwise, whatever `type` the input
carried), and a non-null, non-empty `date`. -/
theorem C1_processed_invariants (t : RawTxn) (idx : ℕ) (p : ProcessedTxn)
    (h : validate_and_clean_transaction t idx = .ok p) :
    p.amount = |p.raw_amount| ∧ (p.ttype = ofStr "DEBIT" ↔ p.raw_amount < 0) ∧
    (p.ttype = ofStr "CREDIT" ↔ ¬ p.raw_amount < 0) ∧ p.date ≠ [] := by
  unfold validate_and_clean_transaction at h
  split at h
  · exact absurd h (by simp)
  next hdate =>
    split at h
    · exact absurd h (by simp)
    next hdesc =>
      split at h
      next dt ds am heq1 heq2 heq3 =>
        rw [Except.ok.injEq] at h
        subst h
        refine ⟨rfl, ?_, ?_, ?_⟩
        · by_cases ham : am < 0 <;> simp [ham, ofStr]
        · by_cases ham : am < 0 <;> simp [ham, ofStr]
        · intro hnil
          exact hdate (Or.inr (by rw [heq1]; exact congrArg some hnil))
      · exact absurd h (by simp)

/-- Witness for C1 at the scenario-A input. -/
theorem C1_processed_invariants_witness :
    validate_and_clean_transaction txnA 0 = .ok txnAProcessed ∧
      (txnAProcessed.amount = |txnAProcessed.raw_amount| ∧
       (txnAProcessed.ttype = ofStr "DEBIT" ↔ txnAProcessed.raw_amount < 0) ∧
       (txnAProcessed.ttype = ofStr "CREDIT" ↔ ¬ txnAProcessed.raw_amount < 0) ∧
       txnAProcessed.date ≠ []) :=
  ⟨by decide, C1_processed_invariants txnA 0 txnAProcessed (by decide)⟩

/-! ## C2: end-to-end scenario A -/

/-- **C2, counterexample.** The Data Processor passes `date` through
unchanged: on the scenario-A batch the processed date is the raw
`'01-01-2024'`, not the ISO `'2024-01-01'` the claim expects. -/
theorem C2_scenarioA_counterexample :
    ((process_transactions dp0 [txnA]).2.transactions.map (fun p => p.date)
        = [ofStr "01-01-2024"]) ∧
    ofStr "01-01-2024" ≠ ofStr "2024-01-01" := by
  constructor <;> decide

/-- **C2, amended.** Scenario A yields exactly one processed
transaction — identical to the claimed one except that `date` is the
unnormalized input string `'01-01-2024'` — and the claimed summary. -/
theorem C2_scenarioA_amended :
    (process_transactions dp0 [txnA]).2 = {
      status := ofStr "success",
      transactions := [txnAProcessed],
      total_processed := 1, total_errors := 0, validation_errors := [],
      summary := { total_transactions := 1, total_credits := 0, total_debits := 500,
                   net_amount := -500, opening_balance := some 1500,
                   closing_balance := some 1500 } } := by
  have hloop : processLoop 0 [txnA] = ([txnAProcessed], []) := by decide
  have hfc : ([txnAProcessed].filter fun t => t.ttype = ofStr "CREDIT").map
      (fun t => t.amount) = [] := by decide
  have hfd : ([txnAProcessed].filter fun t => t.ttype = ofStr "DEBIT").map
      (fun t => t.amount) = [500] := by decide
  have hsum : generate_summary [txnAProcessed]
      = ⟨1, 0, 500, -500, some 1500, some 1500⟩ := by
    unfold generate_summary
    rw [if_neg (by decide : ¬([txnAProcessed] = []))]
    simp only [hfc, hfd, List.sum_nil, List.sum_cons]
    rw [Summary.mk.injEq]
    refine ⟨by decide, by decide, ?_, ?_, by decide, by decide⟩
    · rw [show (500 : ℚ) + 0 = 500 by norm_num]; decide
    · rw [show (0 : ℚ) - (500 + 0) = -500 by norm_num]; decide
  unfold process_transactions
  rw [hloop]
  rw [ProcessResult.mk.injEq]
  exact ⟨rfl, rfl, rfl, rfl, rfl, hsum⟩

/-! ## C3: per-invocation state reset -/

/-- **C3, counterexample.** `PDFParser.parse_pdf` never resets
`self.transactions`: a second call on the same instance over the same
one-table document returns a different envelope than a first call. -/
theorem C3_reset_counterexample :
    (parse_pdf (parse_pdf pp0 (some docA)).1 (some docA)).2
      ≠ (parse_pdf pp0 (some docA)).2 := by
  decide

/-- **C3, amended.** `DataProcessor.process_transactions` resets its
lists, so its result is independent of the instance state; but
`PDFParser.parse_pdf` does not reset `self.transactions`, so a second
call on the same instance accumulates (here: 2 candidates instead
of 1). -/
theorem C3_reset_amended :
    (∀ (s s' : DPState) (ts : List RawTxn),
        process_transactions s ts = process_transactions s' ts) ∧
    (parse_pdf pp0 (some docA)).2.total_transactions = 1 ∧
    (parse_pdf (parse_pdf pp0 (some docA)).1 (some docA)).2.total_transactions = 2 := by
  refine ⟨fun s s' ts => rfl, by decide, by decide⟩

/-! ## C5: when the free-text fallback runs -/

/-- **C5.** In `PDFParser.extract_from_page`, free-text extraction runs
exactly when the page yielded no tables or the cumulative accumulator
(including earlier pages) is still empty after this page's table pass;
otherwise only the table pass runs. -/
theorem C5_text_fallback (s : PPState) (page : Page) :
    ((page.tables = [] ∨ (page.tables.foldl extract_from_table s).transactions = []) →
      extract_from_page s page
        = extract_from_text (page.tables.foldl extract_from_table s) page.text) ∧
    ((page.tables ≠ [] ∧ (page.tables.foldl extract_from_table s).transactions ≠ []) →
      extract_from_page s page = page.tables.foldl extract_from_table s) := by
  unfold extract_from_page
  constructor
  · intro h
    rw [if_pos]
    rcases h with h | h
    · exact Or.inl h
    · exact Or.inr (by simp [h])
  · intro h
    rw [if_neg]
    push_neg
    refine ⟨h.1, ?_⟩
    simpa [List.length_eq_zero] using h.2

/-- Witness for C5: on a tableless page the text pass runs. -/
theorem C5_text_fallback_witness :
    extract_from_page pp0 { text := some (ofStr "x"), tables := [] }
      = extract_from_text
          (([] : List (List Row)).foldl extract_from_table pp0)
          (some (ofStr "x")) :=
  (C5_text_fallback pp0 { text := some (ofStr "x"), tables := [] }).1 (Or.inl rfl)

/-! ## C6: sign handling in the amount normalizer -/

/-- **C6.** `PDFParser.parse_amount` returns null on an absent or empty
token; `'1,234.50-'` and `'-1,234.50'` both give -1234.50; and in
general a `'-'` anywhere in the comma-stripped, whitespace-trimmed
token negates the value parsed from the token with every `'-'`
removed. -/
theorem C6_amount_sign :
    parse_amount none = none ∧
    parse_amount (some []) = none ∧
    parse_amount (some (ofStr "1,234.50-")) = some (-(1234.5)) ∧
    parse_amount (some (ofStr "-1,234.50")) = some (-(1234.5)) ∧
    (∀ a : Str, a ≠ [] →
      '-' ∈ pyStrip (a.filter (fun c => c != ',')) →
      parse_amount (some a)
        = (pyFloat ((pyStrip (a.filter (fun c => c != ','))).filter (fun c => c != '-'))).map
            (fun v => round2 (-v))) := by
  have hval : (-(1234.5) : ℚ) = mkRat (-2469) 2 := by
    rw [Rat.mkRat_eq_div]; norm_num
  refine ⟨rfl, rfl, by rw [hval]; decide, by rw [hval]; decide, ?_⟩
  intro a ha hm
  simp only [parse_amount]
  rw [if_neg ha]
  rw [if_pos (by simpa [List.elem_iff] using hm)]
  cases pyFloat ((pyStrip (a.filter (fun c => c != ','))).filter (fun c => c != '-')) <;> rfl

/-- Witness for C6's general sign rule at the token `'1-'`. -/
theorem C6_amount_sign_witness :
    (ofStr "1-" ≠ [] ∧ '-' ∈ pyStrip ((ofStr "1-").filter (fun c => c != ','))) ∧
    parse_amount (some (ofStr "1-"))
      = (pyFloat ((pyStrip ((ofStr "1-").filter (fun c => c != ','))).filter
          (fun c => c != '-'))).map (fun v => round2 (-v)) :=
  ⟨⟨by decide, by decide⟩,
   C6_amount_sign.2.2.2.2 (ofStr "1-") (by decide) (by decide)⟩

/-! ## C7: one outcome per input index -/

/-- **C7.** `DataProcessor.process_transactions` gives each input index
`k` exactly one outcome: `total_processed + total_errors = N`, the
number of processed rows with `row_num = k + 2` plus the number of
errors with `index = k` is exactly one, and the error exists exactly
when the validator rejects input `k`.  A failure at one index never
suppresses the outcomes of later indices. -/
theorem C7_one_outcome_per_index (s : DPState) (ts : List RawTxn) (k : ℕ)
    (hk : k < ts.length) :
    ((process_transactions s ts).2.total_processed
        + (process_transactions s ts).2.total_errors = ts.length) ∧
    ((process_transactions s ts).2.transactions.countP
        (fun p => decide (p.row_num = k + 2))
      + (process_transactions s ts).2.validation_errors.countP
          (fun e => decide (e.index = k)) = 1) ∧
    (((process_transactions s ts).2.validation_errors.countP
          (fun e => decide (e.index = k)) = 1)
      ↔ ∃ msg, validate_and_clean_transaction (ts.get ⟨k, hk⟩) k = .error msg) := by
  have hlen := processLoop_len ts 0
  have hc := processLoop_counts ts 0 k hk
  simp only [Nat.zero_add] at hc
  unfold process_transactions
  simp only
  rcases hc with ⟨h1, h2, p, hp⟩ | ⟨h1, h2, msg, hmsg⟩
  · refine ⟨hlen, by omega, ?_⟩
    constructor
    · intro hcount; omega
    · rintro ⟨msg, hmsg⟩
      rw [hp] at hmsg
      exact Except.noConfusion hmsg
  · exact ⟨hlen, by omega, fun _ => ⟨msg, hmsg⟩, fun _ => h2⟩

/-- Witness for C7 on the one-element scenario-A batch. -/
theorem C7_one_outcome_per_index_witness :
    ((process_transactions dp0 [txnA]).2.total_processed
        + (process_transactions dp0 [txnA]).2.total_errors = [txnA].length) ∧
    ((process_transactions dp0 [txnA]).2.transactions.countP
        (fun p => decide (p.row_num = 0 + 2))
      + (process_transactions dp0 [txnA]).2.validation_errors.countP
          (fun e => decide (e.index = 0)) = 1) ∧
    (((process_transactions dp0 [txnA]).2.validation_errors.countP
          (fun e => decide (e.index = 0)) = 1)
      ↔ ∃ msg, validate_and_clean_transaction txnA 0 = .error msg) :=
  C7_one_outcome_per_index dp0 [txnA] 0 (by decide)

/-! ## C8: summary totals -/

/-- **C8.** On every processed batch the summary satisfies:
`total_credits` and `total_debits` are the 2-decimal roundings of the
sums of `amount` over `CREDIT`- and `DEBIT`-typed entries, both
non-negative,
`net_amount` is the rounding of `credits - debits`, hence agrees with
`total_credits - total_debits` within 2-decimal rounding error; the
empty batch gives the all-zero, null-balance summary. -/
theorem C8_summary_totals (s : DPState) (ts : List RawTxn) :
    ((process_transactions s ts).2.transactions = [] →
      (process_transactions s ts).2.summary = ⟨0, 0, 0, 0, none, none⟩) ∧
    ((process_transactions s ts).2.transactions ≠ [] →
      (process_transactions s ts).2.summary.total_credits
          = round2 ((((process_transactions s ts).2.transactions.filter
              (fun t => t.ttype = ofStr "CREDIT")).map (fun t => t.amount)).sum)
        ∧ (process_transactions s ts).2.summary.total_debits
          = round2 ((((process_transactions s ts).2.transactions.filter
              (fun t => t.ttype = ofStr "DEBIT")).map (fun t => t.amount)).sum)
        ∧ (process_transactions s ts).2.summary.net_amount
          = round2 (((((process_transactions s ts).2.transactions.filter
                (fun t => t.ttype = ofStr "CREDIT")).map (fun t => t.amount)).sum)
              - ((((process_transactions s ts).2.transactions.filter
                (fun t => t.ttype = ofStr "DEBIT")).map (fun t => t.amount)).sum))
        ∧ 0 ≤ (process_transactions s ts).2.summary.total_credits
        ∧ 0 ≤ (process_transactions s ts).2.summary.total_debits
        ∧ |(process_transactions s ts).2.summary.net_amount
            - ((process_transactions s ts).2.summary.total_credits
              - (process_transactions s ts).2.summary.total_debits)| ≤ 3 / 200) := by
  have hnn : ∀ q ∈ (processLoop 0 ts).1, (0 : ℚ) ≤ q.amount :=
    fun q hq => processLoop_amount_nonneg ts 0 q hq
  have hsumC : (0 : ℚ) ≤ ((((processLoop 0 ts).1.filter
      (fun t => t.ttype = ofStr "CREDIT")).map (fun t => t.amount)).sum) := by
    apply List.sum_nonneg
    intro x hx
    rcases List.mem_map.mp hx with ⟨q, hq, rfl⟩
    exact hnn q (List.mem_of_mem_filter hq)
  have hsumD : (0 : ℚ) ≤ ((((processLoop 0 ts).1.filter
      (fun t => t.ttype = ofStr "DEBIT")).map (fun t => t.amount)).sum) := by
    apply List.sum_nonneg
    intro x hx
    rcases List.mem_map.mp hx with ⟨q, hq, rfl⟩
    exact hnn q (List.mem_of_mem_filter hq)
  unfold process_transactions
  simp only
  constructor
  · intro h
    unfold generate_summary
    rw [if_pos h]
  · intro h
    unfold generate_summary
    rw [if_neg h]
    refine ⟨rfl, rfl, rfl, round2_nonneg _ hsumC, round2_nonneg _ hsumD,
      round2_net_bound _ _⟩

/-- Witness for C8's non-empty case on the scenario-A batch. -/
theorem C8_summary_totals_witness :
    (process_transactions dp0 [txnA]).2.transactions ≠ [] ∧
    ((process_transactions dp0 [txnA]).2.summary.total_credits
        = round2 ((((process_transactions dp0 [txnA]).2.transactions.filter
            (fun t => t.ttype = ofStr "CREDIT")).map (fun t => t.amount)).sum)
      ∧ (process_transactions dp0 [txnA]).2.summary.total_debits
        = round2 ((((process_transactions dp0 [txnA]).2.transactions.filter
            (fun t => t.ttype = ofStr "DEBIT")).map (fun t => t.amount)).sum)
      ∧ (process_transactions dp0 [txnA]).2.summary.net_amount
        = round2 (((((process_transactions dp0 [txnA]).2.transactions.filter
              (fun t => t.ttype = ofStr "CREDIT")).map (fun t => t.amount)).sum)
            - ((((process_transactions dp0 [txnA]).2.transactions.filter
              (fun t => t.ttype = ofStr "DEBIT")).map (fun t => t.amount)).sum))
      ∧ 0 ≤ (process_transactions dp0 [txnA]).2.summary.total_credits
      ∧ 0 ≤ (process_transactions dp0 [txnA]).2.summary.total_debits
      ∧ |(process_transactions dp0 [txnA]).2.summary.net_amount
          - ((process_transactions dp0 [txnA]).2.summary.total_credits
            - (process_transactions dp0 [txnA]).2.summary.total_debits)| ≤ 3 / 200) :=
  ⟨by decide, (C8_summary_totals dp0 [txnA]).2 (by decide)⟩

/-! ## C10: every kept candidate has a date and a nonzero amount -/

/-- **C10.** Every raw transaction candidate the PDF parser appends —
whether from the table or the free-text variant — has a non-null parsed
date and a non-null, nonzero parsed amount (a row or match whose amount
parses to exactly 0 is dropped by the truthiness checks). -/
theorem C10_kept_candidates (s : PPState) (doc : Document) (t : RawTxn)
    (ht : t ∈ (parse_pdf s (some doc)).2.transactions) :
    t ∈ s.transactions ∨ (t.date ≠ none ∧ t.amount ≠ none ∧ t.amount ≠ some 0) := by
  unfold parse_pdf at ht
  dsimp only at ht
  have h := foldl_txn_mem extract_from_page
    (fun s a t h => extract_from_page_mem s a t h)
    doc.pages (detect_bank_type s doc) t ht
  rcases h with h | h
  · rw [detect_txns] at h
    exact Or.inl h
  · exact Or.inr h

/-- Witness for C10: the candidate extracted from `docA`'s table row. -/
theorem C10_kept_candidates_witness :
    txnRowA ∈ (parse_pdf pp0 (some docA)).2.transactions ∧
    (txnRowA ∈ pp0.transactions ∨
      (txnRowA.date ≠ none ∧ txnRowA.amount ≠ none ∧ txnRowA.amount ≠ some 0)) :=
  ⟨by decide, C10_kept_candidates pp0 docA txnRowA (by decide)⟩

/-! ## C9 machinery: structure of `pySplit` / `joinSp` -/

theorem takeWhile_all_eq {α} (p : α → Bool) :
    ∀ l : List α, (∀ c ∈ l, p c = true) → l.takeWhile p = l := by
  intro l
  induction l with
  | nil => intro _; rfl
  | cons x xs ih =>
    intro h
    rw [List.takeWhile_cons, h x (by simp), if_pos rfl,
      ih (fun c hc => h c (by simp [hc]))]

theorem dropWhile_all_nil {α} (p : α → Bool) :
    ∀ l : List α, (∀ c ∈ l, p c = true) → l.dropWhile p = [] := by
  intro l
  induction l with
  | nil => intro _; rfl
  | cons x xs ih =>
    intro h
    rw [List.dropWhile_cons, h x (by simp), if_pos rfl, ih (fun c hc => h c (by simp [hc]))]

theorem takeWhile_append_all {α} (p : α → Bool) :
    ∀ (w rest : List α), (∀ c ∈ w, p c = true) →
      (w ++ rest).takeWhile p = w ++ rest.takeWhile p := by
  intro w
  induction w with
  | nil => intro rest _; rfl
  | cons x xs ih =>
    intro rest h
    rw [List.cons_append, List.takeWhile_cons, h x (by simp), if_pos rfl,
      ih rest (fun c hc => h c (by simp [hc])), List.cons_append]

theorem dropWhile_append_all {α} (p : α → Bool) :
    ∀ (w rest : List α), (∀ c ∈ w, p c = true) →
      (w ++ rest).dropWhile p = rest.dropWhile p := by
  intro w
  induction w with
  | nil => intro rest _; rfl
  | cons x xs ih =>
    intro rest h
    rw [List.cons_append, List.dropWhile_cons, h x (by simp), if_pos rfl,
      ih rest (fun c hc => h c (by simp [hc]))]

theorem dropWhile_head_false {α} (p : α → Bool) :
    ∀ l : List α, (∀ x, l.head? = some x → p x = false) → l.dropWhile p = l := by
  intro l h
  cases l with
  | nil => rfl
  | cons x xs => rw [List.dropWhile_cons, h x rfl]; simp

theorem mem_takeWhile_sat {α} (p : α → Bool) :
    ∀ l : List α, ∀ c ∈ l.takeWhile p, p c = true := by
  intro l
  induction l with
  | nil => intro c hc; simp [List.takeWhile] at hc
  | cons x xs ih =>
    intro c hc
    rw [List.takeWhile_cons] at hc
    by_cases hx : p x = true
    · rw [if_pos hx] at hc
      rcases List.mem_cons.mp hc with rfl | hc
      · exact hx
      · exact ih c hc
    · rw [if_neg hx] at hc
      exact absurd hc (List.not_mem_nil c)

theorem pySplitF_congr : ∀ (f g : ℕ) (l : Str), l.length ≤ f → l.length ≤ g →
    pySplitF f l = pySplitF g l := by
  intro f
  induction f with
  | zero =>
    intro g l hf _
    have : l = [] := List.length_eq_zero.mp (Nat.le_zero.mp hf)
    subst this
    cases g <;> rfl
  | succ f ih =>
    intro g l hf hg
    cases l with
    | nil => cases g <;> rfl
    | cons c cs =>
      cases g with
      | zero => exact absurd hg (by simp)
      | succ g =>
        simp only [pySplitF]
        by_cases hc : isPySpace c = true
        · rw [if_pos hc, if_pos hc]
          exact ih g cs (by simpa using hf) (by simpa using hg)
        · rw [if_neg hc, if_neg hc]
          have hd : (cs.dropWhile (fun x => !isPySpace x)).length ≤ cs.length :=
            (List.dropWhile_suffix _).length_le
          rw [ih g (cs.dropWhile (fun x => !isPySpace x))
            (by simp at hf; omega) (by simp at hg; omega)]

theorem pySplit_space {c : Char} (cs : Str) (h : isPySpace c = true) :
    pySplit (c :: cs) = pySplit cs := by
  unfold pySplit
  simp only [List.length_cons, pySplitF, h, if_pos]

theorem pySplit_word {c : Char} (cs : Str) (h : isPySpace c = false) :
    pySplit (c :: cs)
      = (c :: cs).takeWhile (fun x => !isPySpace x)
        :: pySplit (cs.dropWhile (fun x => !isPySpace x)) := by
  unfold pySplit
  simp only [List.length_cons, pySplitF, h]
  rw [if_neg (by simp [h])]
  rw [pySplitF_congr cs.length (cs.dropWhile (fun x => !isPySpace x)).length
    (cs.dropWhile (fun x => !isPySpace x))
    ((List.dropWhile_suffix _).length_le) (le_refl _)]

/-- The pieces `pySplit` produces are nonempty and whitespace-free. -/
theorem pySplit_words : ∀ (f : ℕ) (l : Str), ∀ w ∈ pySplitF f l,
    w ≠ [] ∧ ∀ c ∈ w, isPySpace c = false := by
  intro f
  induction f with
  | zero => intro l w hw; cases l <;> simp [pySplitF] at hw
  | succ f ih =>
    intro l w hw
    cases l with
    | nil => simp [pySplitF] at hw
    | cons c cs =>
      simp only [pySplitF] at hw
      by_cases hc : isPySpace c = true
      · rw [if_pos hc] at hw
        exact ih cs w hw
      · rw [if_neg hc] at hw
        rcases List.mem_cons.mp hw with rfl | hw
        · constructor
          · rw [List.takeWhile_cons, show (!isPySpace c) = true by simp [hc], if_pos rfl]
            simp
          · intro x hx
            have := mem_takeWhile_sat (fun x => !isPySpace x) (c :: cs) x hx
            simpa using this
        · exact ih _ w hw

theorem pySplit_words' (l : Str) : ∀ w ∈ pySplit l,
    w ≠ [] ∧ ∀ c ∈ w, isPySpace c = false :=
  pySplit_words l.length l

theorem joinSp_cons_ne (w : Str) (vs : List Str) (h : vs ≠ []) :
    joinSp (w :: vs) = w ++ ' ' :: joinSp vs := by
  cases vs with
  | nil => exact absurd rfl h
  | cons v vs2 => rfl

theorem joinSp_ne_nil : ∀ ws : List Str, ws ≠ [] → (∀ w ∈ ws, w ≠ []) →
    joinSp ws ≠ [] := by
  intro ws
  cases ws with
  | nil => intro h _; exact absurd rfl h
  | cons w ws2 =>
    intro _ hw
    cases ws2 with
    | nil => exact hw w (by simp)
    | cons w2 ws3 =>
      rw [joinSp_cons_ne _ _ (by simp)]
      intro hc
      exact absurd (List.append_eq_nil.mp hc).2 (by simp)

/-- Splitting a space-joined list of nonempty, space-free words gives
the words back: the `' '.join`/`split()` round trip. -/
theorem pySplit_joinSp : ∀ ws : List Str,
    (∀ w ∈ ws, w ≠ [] ∧ ∀ c ∈ w, isPySpace c = false) →
    pySplit (joinSp ws) = ws := by
  intro ws
  induction ws with
  | nil => intro _; rfl
  | cons w ws2 ih =>
    intro h
    obtain ⟨hne, hnsp⟩ := h w (by simp)
    obtain ⟨c, cs, rfl⟩ : ∃ c cs, w = c :: cs := by
      cases w with
      | nil => exact absurd rfl hne
      | cons c cs => exact ⟨c, cs, rfl⟩
    cases ws2 with
    | nil =>
      show pySplit (c :: cs) = [c :: cs]
      rw [pySplit_word cs (hnsp c (by simp))]
      rw [takeWhile_all_eq _ (c :: cs) (fun x hx => by simp [hnsp x hx])]
      rw [dropWhile_all_nil _ cs (fun x hx => by simp [hnsp x (by simp [hx])])]
      rfl
    | cons w2 ws3 =>
      rw [joinSp_cons_ne _ _ (by simp), List.cons_append]
      rw [pySplit_word _ (hnsp c (by simp))]
      congr 1
      · rw [show c :: (cs ++ ' ' :: joinSp (w2 :: ws3))
            = (c :: cs) ++ ' ' :: joinSp (w2 :: ws3) from rfl]
        rw [takeWhile_append_all _ (c :: cs) _ (fun x hx => by simp [hnsp x hx])]
        rw [show (' ' :: joinSp (w2 :: ws3)).takeWhile (fun x => !isPySpace x) = []
          from by rw [List.takeWhile_cons]; simp [isPySpace]]
        simp
      · rw [dropWhile_append_all _ cs _ (fun x hx => by simp [hnsp x (by simp [hx])])]
        rw [show (' ' :: joinSp (w2 :: ws3)).dropWhile (fun x => !isPySpace x)
            = ' ' :: joinSp (w2 :: ws3)
          from by rw [List.dropWhile_cons]; simp [isPySpace]]
        rw [pySplit_space _ (by simp [isPySpace])]
        exact ih (fun v hv => h v (by simp [hv]))

theorem getLast?_mem_of {α} : ∀ (l : List α) (x : α), l.getLast? = some x → x ∈ l := by
  intro l
  induction l with
  | nil => intro x hx; exact absurd hx (by simp)
  | cons a l ih =>
    intro x hx
    cases l with
    | nil =>
      rw [List.getLast?_singleton] at hx
      simp only [Option.some.injEq] at hx
      simp [hx]
    | cons b l2 =>
      rw [List.getLast?_cons_cons] at hx
      exact List.mem_cons_of_mem a (ih x hx)

theorem glast_append {α} : ∀ (l1 l2 : List α), l2 ≠ [] →
    (l1 ++ l2).getLast? = l2.getLast? := by
  intro l1
  induction l1 with
  | nil => intro l2 _; rfl
  | cons a l1 ih =>
    intro l2 h2
    rw [List.cons_append]
    cases hl : l1 ++ l2 with
    | nil => exact absurd (List.append_eq_nil.mp hl).2 h2
    | cons b t =>
      rw [List.getLast?_cons_cons, ← hl]
      exact ih l2 h2

theorem joinSp_head_nonspace : ∀ ws : List Str,
    (∀ w ∈ ws, w ≠ [] ∧ ∀ c ∈ w, isPySpace c = false) →
    ∀ x, (joinSp ws).head? = some x → isPySpace x = false := by
  intro ws h x hx
  cases ws with
  | nil => exact absurd hx (by simp [joinSp])
  | cons w ws2 =>
    obtain ⟨hne, hw⟩ := h w (by simp)
    obtain ⟨c, cs, rfl⟩ : ∃ c cs, w = c :: cs := by
      cases w with
      | nil => exact absurd rfl hne
      | cons c cs => exact ⟨c, cs, rfl⟩
    cases ws2 with
    | nil =>
      simp only [joinSp, List.head?_cons, Option.some.injEq] at hx
      rw [← hx]
      exact hw c (by simp)
    | cons w2 ws3 =>
      rw [joinSp_cons_ne _ _ (by simp), List.cons_append] at hx
      simp only [List.head?_cons, Option.some.injEq] at hx
      rw [← hx]
      exact hw c (by simp)

theorem joinSp_last_nonspace : ∀ ws : List Str,
    (∀ w ∈ ws, w ≠ [] ∧ ∀ c ∈ w, isPySpace c = false) →
    ∀ x, (joinSp ws).getLast? = some x → isPySpace x = false := by
  intro ws
  induction ws with
  | nil => intro _ x hx; exact absurd hx (by simp [joinSp])
  | cons w ws2 ih =>
    intro h x hx
    obtain ⟨hne, hw⟩ := h w (by simp)
    cases ws2 with
    | nil => exact hw x (getLast?_mem_of w x hx)
    | cons w2 ws3 =>
      rw [joinSp_cons_ne _ _ (by simp)] at hx
      rw [glast_append w _ (by simp)] at hx
      have hrest : joinSp (w2 :: ws3) ≠ [] :=
        joinSp_ne_nil _ (by simp) (fun v hv => (h v (by simp [hv])).1)
      rw [show (' ' :: joinSp (w2 :: ws3)) = [' '] ++ joinSp (w2 :: ws3) from rfl,
        glast_append [' '] _ hrest] at hx
      exact ih (fun v hv => h v (by simp [hv])) x hx

theorem pyStrip_joinSp (ws : List Str)
    (h : ∀ w ∈ ws, w ≠ [] ∧ ∀ c ∈ w, isPySpace c = false) :
    pyStrip (joinSp ws) = joinSp ws := by
  unfold pyStrip
  rw [dropWhile_head_false _ _ (joinSp_head_nonspace ws h)]
  rw [dropWhile_head_false _ (joinSp ws).reverse
    (fun x hx => joinSp_last_nonspace ws h x (by rwa [List.head?_reverse] at hx))]
  rw [List.reverse_reverse]

/-- `clean_description` with the no-op `strip` removed. -/
theorem clean_description_eq (l : Str) :
    clean_description l
      = (if 100 < (joinSp (pySplit l)).length
         then (joinSp (pySplit l)).take 97 ++ ['.', '.', '.']
         else joinSp (pySplit l)) := by
  unfold clean_description
  rw [pyStrip_joinSp _ (pySplit_words' l)]

theorem clean_of_words (vs : List Str)
    (hvs : ∀ w ∈ vs, w ≠ [] ∧ ∀ c ∈ w, isPySpace c = false)
    (hlen : ¬ 100 < (joinSp vs).length) :
    clean_description (joinSp vs) = joinSp vs := by
  rw [clean_description_eq (joinSp vs), pySplit_joinSp vs hvs, if_neg hlen]

theorem joinSp_append_last (t : Str) : ∀ (ws1 : List Str) (u : Str),
    joinSp (ws1 ++ [u]) ++ t = joinSp (ws1 ++ [u ++ t]) := by
  intro ws1
  induction ws1 with
  | nil => intro u; rfl
  | cons w ws ih =>
    intro u
    rw [List.cons_append, joinSp_cons_ne _ _ (by simp),
      List.cons_append, joinSp_cons_ne _ _ (by simp)]
    simp only [List.append_assoc, List.cons_append]
    rw [ih u]

theorem joinSp_append_one : ∀ (ws1 : List Str), ws1 ≠ [] → ∀ v : Str,
    joinSp (ws1 ++ [v]) = joinSp ws1 ++ ' ' :: v := by
  intro ws1
  induction ws1 with
  | nil => intro h; exact absurd rfl h
  | cons w ws ih =>
    intro _ v
    cases ws with
    | nil => rfl
    | cons w2 ws2 =>
      rw [List.cons_append, joinSp_cons_ne _ _ (by simp),
        joinSp_cons_ne _ _ (by simp), ih (by simp) v]
      simp [List.append_assoc]

/-- The structure of a nonempty prefix of a space-joined word list:
either it ends inside (or exactly at the end of) a word, or it ends on
a separator space. -/
theorem take_joinSp : ∀ ws : List Str,
    (∀ w ∈ ws, w ≠ [] ∧ ∀ c ∈ w, isPySpace c = false) →
    ∀ n, 1 ≤ n → n ≤ (joinSp ws).length →
    (∃ ws1 u, (∀ w ∈ ws1 ++ [u], w ≠ [] ∧ ∀ c ∈ w, isPySpace c = false) ∧
        (joinSp ws).take n = joinSp (ws1 ++ [u]))
    ∨ (∃ ws1, ws1 ≠ [] ∧ (∀ w ∈ ws1, w ≠ [] ∧ ∀ c ∈ w, isPySpace c = false) ∧
        (joinSp ws).take n = joinSp ws1 ++ [' ']) := by
  intro ws
  induction ws with
  | nil =>
    intro _ n h1 h2
    simp [joinSp] at h2
    omega
  | cons w ws2 ih =>
    intro h n h1 h2
    obtain ⟨hne, hw⟩ := h w (by simp)
    have hwordtake : ∀ m, 1 ≤ m → (w.take m ≠ [] ∧ ∀ c ∈ w.take m, isPySpace c = false) := by
      intro m hm
      constructor
      · intro hnil
        have := congrArg List.length hnil
        simp only [List.length_take, List.length_nil] at this
        rcases Nat.min_eq_zero_iff.mp this with h0 | h0
        · omega
        · exact hne (List.length_eq_zero.mp h0)
      · intro c hc
        exact hw c (List.mem_of_mem_take hc)
    cases ws2 with
    | nil =>
      left
      refine ⟨[], w.take n, ?_, rfl⟩
      intro v hv
      simp only [List.nil_append, List.mem_singleton] at hv
      subst hv
      exact hwordtake n h1
    | cons w2 ws3 =>
      rw [joinSp_cons_ne _ _ (by simp)] at h2 ⊢
      by_cases hn1 : n ≤ w.length
      · left
        refine ⟨[], w.take n, ?_, ?_⟩
        · intro v hv
          simp only [List.nil_append, List.mem_singleton] at hv
          subst hv
          exact hwordtake n h1
        · show (w ++ ' ' :: joinSp (w2 :: ws3)).take n = joinSp [w.take n]
          rw [List.take_append_eq_append_take, show n - w.length = 0 from by omega]
          simp [joinSp]
      · by_cases hn2 : n = w.length + 1
        · right
          refine ⟨[w], by simp, ?_, ?_⟩
          · intro v hv
            simp only [List.mem_singleton] at hv
            subst hv
            exact ⟨hne, hw⟩
          · show (w ++ ' ' :: joinSp (w2 :: ws3)).take n = joinSp [w] ++ [' ']
            rw [List.take_append_eq_append_take,
              List.take_of_length_le (by omega),
              show n - w.length = 1 from by omega]
            rfl
        · have hn3 : w.length + 2 ≤ n := by omega
          have h2' : n - w.length - 1 ≤ (joinSp (w2 :: ws3)).length := by
            simp only [List.length_append, List.length_cons] at h2
            omega
          have ihh := ih (fun v hv => h v (by simp [hv])) (n - w.length - 1)
            (by omega) h2'
          have htake : (w ++ ' ' :: joinSp (w2 :: ws3)).take n
              = w ++ ' ' :: (joinSp (w2 :: ws3)).take (n - w.length - 1) := by
            rw [List.take_append_eq_append_take,
              List.take_of_length_le (by omega),
              show n - w.length = (n - w.length - 1) + 1 from by omega]
            rfl
          rcases ihh with ⟨ws1, u, hws1, hteq⟩ | ⟨ws1, hws1ne, hws1, hteq⟩
          · left
            refine ⟨w :: ws1, u, ?_, ?_⟩
            · intro v hv
              simp only [List.cons_append, List.mem_cons] at hv
              rcases hv with rfl | hv2
              · exact ⟨hne, hw⟩
              · exact hws1 v hv2
            · rw [htake, hteq, List.cons_append,
                joinSp_cons_ne _ _ (by simp)]
          · right
            refine ⟨w :: ws1, by simp, ?_, ?_⟩
            · intro v hv
              rcases List.mem_cons.mp hv with rfl | hv2
              · exact ⟨hne, hw⟩
              · exact hws1 v hv2
            · rw [htake, hteq, joinSp_cons_ne _ _ hws1ne]
              simp [List.append_assoc]

/-! ## C9: description cleaning -/

set_option maxRecDepth 10000 in
/-- **C9, counterexample.** A 150-character description of spaces
cleans to the empty string, not to a 100-character string. -/
theorem C9_clean_counterexample :
    (List.replicate 150 ' ').length = 150 ∧
    clean_description (List.replicate 150 ' ') = [] ∧
    (clean_description (List.replicate 150 ' ')).length ≠ 100 := by
  refine ⟨by decide, by decide, by decide⟩

/-- **C9, amended.** Description cleaning is idempotent on every
string; and every description whose whitespace-collapsed, trimmed form
exceeds 100 characters (in particular any 150-character description
with no collapsible whitespace) cleans to exactly 100 characters
ending in the 3-character ellipsis marker. -/
theorem C9_clean_idempotent_truncation :
    (∀ l : Str, clean_description (clean_description l) = clean_description l) ∧
    (∀ l : Str, 100 < (pyStrip (joinSp (pySplit l))).length →
      (clean_description l).length = 100 ∧ ['.', '.', '.'] <:+ clean_description l) := by
  have hdots : ∀ c ∈ ['.', '.', '.'], isPySpace c = false := by decide
  constructor
  · intro l
    have hwords := pySplit_words' l
    rw [clean_description_eq l]
    by_cases hlen : 100 < (joinSp (pySplit l)).length
    · rw [if_pos hlen]
      rcases take_joinSp (pySplit l) hwords 97 (by omega) (by omega) with
        ⟨ws1, u, hws1, hteq⟩ | ⟨ws1, hws1ne, hws1, hteq⟩
      · rw [hteq, joinSp_append_last ['.', '.', '.'] ws1 u]
        have hallw : ∀ w ∈ ws1 ++ [u ++ ['.', '.', '.']],
            w ≠ [] ∧ ∀ c ∈ w, isPySpace c = false := by
          intro v hv
          rcases List.mem_append.mp hv with hv1 | hv1
          · exact hws1 v (List.mem_append.mpr (Or.inl hv1))
          · simp only [List.mem_singleton] at hv1
            subst hv1
            obtain ⟨hu1, hu2⟩ := hws1 u (List.mem_append.mpr (Or.inr (by simp)))
            constructor
            · simp [hu1]
            · intro c hc
              rcases List.mem_append.mp hc with hc1 | hc1
              · exact hu2 c hc1
              · exact hdots c hc1
        apply clean_of_words _ hallw
        rw [← joinSp_append_last, ← hteq]
        simp only [List.length_append, List.length_take, List.length_cons,
          List.length_nil]
        omega
      · rw [hteq]
        have hj : (joinSp ws1 ++ [' ']) ++ ['.', '.', '.']
            = joinSp (ws1 ++ [['.', '.', '.']]) := by
          rw [joinSp_append_one ws1 hws1ne]
          simp
        rw [hj]
        have hallw : ∀ w ∈ ws1 ++ [['.', '.', '.']],
            w ≠ [] ∧ ∀ c ∈ w, isPySpace c = false := by
          intro v hv
          rcases List.mem_append.mp hv with hv1 | hv1
          · exact hws1 v hv1
          · simp only [List.mem_singleton] at hv1
            subst hv1
            exact ⟨by simp, hdots⟩
        apply clean_of_words _ hallw
        rw [← hj, ← hteq]
        simp only [List.length_append, List.length_take, List.length_cons,
          List.length_nil]
        omega
    · rw [if_neg hlen]
      exact clean_of_words (pySplit l) hwords hlen
  · intro l h
    rw [pyStrip_joinSp _ (pySplit_words' l)] at h
    rw [clean_description_eq l, if_pos h]
    constructor
    · simp only [List.length_append, List.length_take, List.length_cons,
        List.length_nil]
      omega
    · exact ⟨(joinSp (pySplit l)).take 97, rfl⟩

set_option maxRecDepth 10000 in
/-- Witness for C9's truncation statement at 150 `'a'`s. -/
theorem C9_clean_truncation_witness :
    100 < (pyStrip (joinSp (pySplit (List.replicate 150 'a')))).length ∧
    ((clean_description (List.replicate 150 'a')).length = 100 ∧
      ['.', '.', '.'] <:+ clean_description (List.replicate 150 'a')) :=
  ⟨by decide, C9_clean_idempotent_truncation.2 (List.replicate 150 'a') (by decide)⟩

/-! ## C4 machinery: digits, padded fields, and separators -/

theorem digitCh_props : ∀ k, k < 10 →
    isPySpace (digitCh k) = false ∧ digitCh k ≠ '-' ∧ digitCh k ≠ '/' ∧
    isDigitCh (digitCh k) = true ∧ digitVal (digitCh k) = k := by decide

theorem pad2_cases (n : ℕ) : ∀ c ∈ pad2 n, c = digitCh (n / 10) ∨ c = digitCh (n % 10) := by
  intro c hc
  simp only [pad2, List.mem_cons, List.not_mem_nil, or_false] at hc
  exact hc

theorem pad4_cases (n : ℕ) : ∀ c ∈ pad4 n,
    c = digitCh (n / 1000) ∨ c = digitCh (n / 100 % 10)
    ∨ c = digitCh (n / 10 % 10) ∨ c = digitCh (n % 10) := by
  intro c hc
  simp only [pad4, List.mem_cons, List.not_mem_nil, or_false] at hc
  exact hc

theorem pad2_not_mem (n : ℕ) (hn : n < 100) (c : Char)
    (hc : ∀ k, k < 10 → digitCh k ≠ c) : c ∉ pad2 n := by
  intro hmem
  rcases pad2_cases n c hmem with rfl | rfl
  · exact hc (n / 10) (by omega) rfl
  · exact hc (n % 10) (by omega) rfl

theorem pad4_not_mem (n : ℕ) (hn : n ≤ 9999) (c : Char)
    (hc : ∀ k, k < 10 → digitCh k ≠ c) : c ∉ pad4 n := by
  intro hmem
  rcases pad4_cases n c hmem with rfl | rfl | rfl | rfl
  · exact hc (n / 1000) (by omega) rfl
  · exact hc (n / 100 % 10) (by omega) rfl
  · exact hc (n / 10 % 10) (by omega) rfl
  · exact hc (n % 10) (by omega) rfl

theorem pad2_nospace (n : ℕ) (hn : n < 100) : ∀ c ∈ pad2 n, isPySpace c = false := by
  intro c hc
  rcases pad2_cases n c hc with rfl | rfl
  · exact (digitCh_props (n / 10) (by omega)).1
  · exact (digitCh_props (n % 10) (by omega)).1

theorem pad4_nospace (n : ℕ) (hn : n ≤ 9999) : ∀ c ∈ pad4 n, isPySpace c = false := by
  intro c hc
  rcases pad4_cases n c hc with rfl | rfl | rfl | rfl
  · exact (digitCh_props (n / 1000) (by omega)).1
  · exact (digitCh_props (n / 100 % 10) (by omega)).1
  · exact (digitCh_props (n / 10 % 10) (by omega)).1
  · exact (digitCh_props (n % 10) (by omega)).1

theorem natOfDigits_pad2 (n : ℕ) (hn : n < 100) : natOfDigits (pad2 n) = n := by
  simp only [natOfDigits, pad2, List.foldl_cons, List.foldl_nil]
  rw [(digitCh_props (n / 10) (by omega)).2.2.2.2,
    (digitCh_props (n % 10) (by omega)).2.2.2.2]
  omega

theorem natOfDigits_pad4 (n : ℕ) (hn : n ≤ 9999) : natOfDigits (pad4 n) = n := by
  simp only [natOfDigits, pad4, List.foldl_cons, List.foldl_nil]
  rw [(digitCh_props (n / 1000) (by omega)).2.2.2.2,
    (digitCh_props (n / 100 % 10) (by omega)).2.2.2.2,
    (digitCh_props (n / 10 % 10) (by omega)).2.2.2.2,
    (digitCh_props (n % 10) (by omega)).2.2.2.2]
  omega

theorem pad2_all_digits (n : ℕ) (hn : n < 100) : (pad2 n).all isDigitCh = true := by
  rw [List.all_eq_true]
  intro c hc
  rcases pad2_cases n c hc with rfl | rfl
  · exact (digitCh_props (n / 10) (by omega)).2.2.2.1
  · exact (digitCh_props (n % 10) (by omega)).2.2.2.1

theorem pad4_all_digits (n : ℕ) (hn : n ≤ 9999) : (pad4 n).all isDigitCh = true := by
  rw [List.all_eq_true]
  intro c hc
  rcases pad4_cases n c hc with rfl | rfl | rfl | rfl
  · exact (digitCh_props (n / 1000) (by omega)).2.2.2.1
  · exact (digitCh_props (n / 100 % 10) (by omega)).2.2.2.1
  · exact (digitCh_props (n / 10 % 10) (by omega)).2.2.2.1
  · exact (digitCh_props (n % 10) (by omega)).2.2.2.1

theorem parseField_day_pad2 (d : ℕ) (h1 : 1 ≤ d) (h2 : d ≤ 31) :
    parseField .day (pad2 d) = some d := by
  have hv := natOfDigits_pad2 d (by omega)
  simp only [parseField]
  rw [if_pos ⟨by simp [pad2], by simp [pad2], pad2_all_digits d (by omega),
    by rw [hv]; omega, by rw [hv]; omega⟩, hv]

theorem parseField_mon_pad2_some (m : ℕ) (h1 : 1 ≤ m) (h2 : m ≤ 12) :
    parseField .mon (pad2 m) = some m := by
  have hv := natOfDigits_pad2 m (by omega)
  simp only [parseField]
  rw [if_pos ⟨by simp [pad2], by simp [pad2], pad2_all_digits m (by omega),
    by rw [hv]; omega, by rw [hv]; omega⟩, hv]

theorem parseField_mon_pad2_none (d : ℕ) (h1 : 12 < d) (h2 : d < 100) :
    parseField .mon (pad2 d) = none := by
  have hv := natOfDigits_pad2 d (by omega)
  simp only [parseField]
  rw [if_neg]
  rintro ⟨-, -, -, -, h5⟩
  omega

theorem parseField_year_pad2_none (n : ℕ) : parseField .year (pad2 n) = none := by
  simp only [parseField]
  rw [if_neg]
  rintro ⟨h4, -⟩
  simp [pad2] at h4

theorem parseField_year_pad4 (y : ℕ) (hy : y ≤ 9999) :
    parseField .year (pad4 y) = some y := by
  have hv := natOfDigits_pad4 y hy
  simp only [parseField]
  rw [if_pos ⟨by simp [pad4], pad4_all_digits y hy⟩, hv]

theorem parseField_day_pad4_none (y : ℕ) : parseField .day (pad4 y) = none := by
  simp only [parseField]
  rw [if_neg]
  rintro ⟨-, h2, -⟩
  simp [pad4] at h2

theorem parseField_mon_pad4_none (y : ℕ) : parseField .mon (pad4 y) = none := by
  simp only [parseField]
  rw [if_neg]
  rintro ⟨-, h2, -⟩
  simp [pad4] at h2

theorem lookupName_len_ne : ∀ (names : List Str) (i : ℕ) (s : Str),
    (∀ nm ∈ names, nm.length ≠ s.length) → lookupName names i s = none := by
  intro names
  induction names with
  | nil => intro i s _; rfl
  | cons n ns ih =>
    intro i s h
    unfold lookupName
    rw [if_neg (fun heq => h n (by simp) (by rw [heq]))]
    exact ih (i + 1) s (fun nm hnm => h nm (by simp [hnm]))

theorem parseField_monAbbr_pad2_none (n : ℕ) : parseField .monAbbr (pad2 n) = none := by
  simp only [parseField]
  apply lookupName_len_ne
  intro nm hnm
  rw [List.length_map]
  have : nm.length = 3 := by
    fin_cases hnm <;> rfl
  rw [this]
  simp [pad2]

theorem parseField_monFull_pad2_none (n : ℕ) : parseField .monFull (pad2 n) = none := by
  simp only [parseField]
  apply lookupName_len_ne
  intro nm hnm
  rw [List.length_map]
  have h3 : 3 ≤ nm.length := by
    fin_cases hnm <;> decide
  simp [pad2]
  omega

theorem parseField_monAbbr_pad4_none (n : ℕ) : parseField .monAbbr (pad4 n) = none := by
  simp only [parseField]
  apply lookupName_len_ne
  intro nm hnm
  rw [List.length_map]
  have : nm.length = 3 := by
    fin_cases hnm <;> rfl
  rw [this]
  simp [pad4]

/-- Evaluation of every strptime field on every C-locale month name
(abbreviated or full; index `m` is month `m + 1`), plus character facts
about the names. -/
theorem monName_fields : ∀ m, m < 12 →
    parseField .day (monAbbrsCap.getD m []) = none ∧
    parseField .mon (monAbbrsCap.getD m []) = none ∧
    parseField .year (monAbbrsCap.getD m []) = none ∧
    parseField .monAbbr (monAbbrsCap.getD m []) = some (m + 1) ∧
    parseField .day (monFullsCap.getD m []) = none ∧
    parseField .mon (monFullsCap.getD m []) = none ∧
    parseField .monAbbr (monFullsCap.getD m [])
      = (if m + 1 = 5 then some 5 else none) ∧
    parseField .monFull (monFullsCap.getD m []) = some (m + 1) ∧
    (∀ c ∈ monAbbrsCap.getD m [],
      isPySpace c = false ∧ c ≠ '-' ∧ c ≠ '/') ∧
    (∀ c ∈ monFullsCap.getD m [],
      isPySpace c = false ∧ c ≠ '-' ∧ c ≠ '/') := by decide

theorem splitOn_single (sep : Char) (t : Str) (h : sep ∉ t) :
    t.splitOn sep = [t] := by
  apply List.splitOnP_eq_single
  intro x hx
  simp only [beq_iff_eq]
  rintro rfl
  exact h hx

theorem splitOn_three (sep : Char) (a b c : Str)
    (ha : sep ∉ a) (hb : sep ∉ b) (hc : sep ∉ c) :
    (a ++ ((sep :: b) ++ (sep :: c))).splitOn sep = [a, b, c] := by
  show (a ++ ((sep :: b) ++ (sep :: c))).splitOnP (· == sep) = [a, b, c]
  rw [show a ++ ((sep :: b) ++ (sep :: c)) = a ++ sep :: (b ++ sep :: c) by simp]
  rw [List.splitOnP_first (· == sep) a
    (fun x hx => by simp only [beq_iff_eq]; rintro rfl; exact ha hx) sep
    (by simp) (b ++ sep :: c)]
  rw [List.splitOnP_first (· == sep) b
    (fun x hx => by simp only [beq_iff_eq]; rintro rfl; exact hb hx) sep
    (by simp) c]
  rw [List.splitOnP_eq_single (· == sep) c
    (fun x hx => by simp only [beq_iff_eq]; rintro rfl; exact hc hx)]

theorem daysInMonth_le (y m : ℕ) : daysInMonth y m ≤ 31 := by
  unfold daysInMonth
  split_ifs <;> norm_num

theorem dropWhile_all_false {α} (p : α → Bool) :
    ∀ l : List α, (∀ c ∈ l, p c = false) → l.dropWhile p = l := by
  intro l h
  cases l with
  | nil => rfl
  | cons c cs => rw [List.dropWhile_cons, h c (by simp)]; simp

theorem pyStrip_id_of (t : Str) (h : ∀ c ∈ t, isPySpace c = false) :
    pyStrip t = t := by
  unfold pyStrip
  rw [dropWhile_all_false _ _ h,
    dropWhile_all_false _ _ (fun c hc => h c (List.mem_reverse.mp hc)),
    List.reverse_reverse]

theorem not_mem_token (other sep : Char) (hos : other ≠ sep) (a b c : Str)
    (ha : other ∉ a) (hb : other ∉ b) (hc : other ∉ c) :
    other ∉ a ++ ((sep :: b) ++ (sep :: c)) := by
  intro hx
  simp only [List.mem_append, List.mem_cons] at hx
  rcases hx with h | (h | h) | (h | h)
  · exact ha h
  · exact hos h
  · exact hb h
  · exact hos h
  · exact hc h

theorem token_nospace (sep : Char) (hs : isPySpace sep = false) (a b c : Str)
    (ha : ∀ x ∈ a, isPySpace x = false) (hb : ∀ x ∈ b, isPySpace x = false)
    (hc : ∀ x ∈ c, isPySpace x = false) :
    ∀ x ∈ a ++ ((sep :: b) ++ (sep :: c)), isPySpace x = false := by
  intro x hx
  simp only [List.mem_append, List.mem_cons] at hx
  rcases hx with h | (h | h) | (h | h)
  · exact ha x h
  · exact h ▸ hs
  · exact hb x h
  · exact h ▸ hs
  · exact hc x h

theorem tryFormat_nosep (f : DFormat) (t : Str) (h : f.sep ∉ t) :
    tryFormat f t = none := by
  unfold tryFormat
  rw [splitOn_single f.sep t h]

/-- **C4 (amended).** Formatting a valid calendar date (year 1000-9999) in
one of the twelve supported patterns and running `parse_date` on the token
returns the ISO form of the original date, PROVIDED that for the two
month-first numeric patterns (`%m-%d-%Y`, `%m/%d/%Y`) the date is
unambiguous: day = month, or day > 12. (Without that proviso the
round-trip fails: day-first formats precede month-first ones in
`date_formats`, so e.g. `01-02-2024` built by `%m-%d-%Y` from
2024-01-02 is read day-first as 2024-02-01.) -/
theorem C4_roundtrip_amended (f : DFormat) (hf : f ∈ date_formats) (y m d : ℕ)
    (h1000 : 1000 ≤ y) (h9999 : y ≤ 9999) (hm1 : 1 ≤ m) (hm12 : m ≤ 12)
    (hd1 : 1 ≤ d) (hdm : d ≤ daysInMonth y m)
    (hnum : f.f1 = DField.mon ∧ f.f2 = DField.day → d = m ∨ 12 < d) :
    parse_date (formatDate f y m d) = some (isoStr y m d) := by
  have hd31 : d ≤ 31 := le_trans hdm (daysInMonth_le y m)
  have hdig_dash : ∀ k, k < 10 → digitCh k ≠ '-' := fun k hk => (digitCh_props k hk).2.1
  have hdig_slash : ∀ k, k < 10 → digitCh k ≠ '/' := fun k hk => (digitCh_props k hk).2.2.1
  have hmn := monName_fields (m - 1) (by omega)
  rw [Nat.sub_add_cancel hm1] at hmn
  obtain ⟨hA_day, hA_mon, hA_year, hA_abbr, hF_day, hF_mon, hF_abbr, hF_full,
    hA_chars, hF_chars⟩ := hmn
  have hA_nospace : ∀ c ∈ monAbbrsCap.getD (m - 1) [], isPySpace c = false :=
    fun c hc => (hA_chars c hc).1
  have hA_ndash : '-' ∉ monAbbrsCap.getD (m - 1) [] := fun hc => (hA_chars _ hc).2.1 rfl
  have hA_nslash : '/' ∉ monAbbrsCap.getD (m - 1) [] := fun hc => (hA_chars _ hc).2.2 rfl
  have hF_nospace : ∀ c ∈ monFullsCap.getD (m - 1) [], isPySpace c = false :=
    fun c hc => (hF_chars c hc).1
  have hF_ndash : '-' ∉ monFullsCap.getD (m - 1) [] := fun hc => (hF_chars _ hc).2.1 rfl
  have hF_nslash : '/' ∉ monFullsCap.getD (m - 1) [] := fun hc => (hF_chars _ hc).2.2 rfl
  have hofs : ofStr "" = ([] : Str) := by decide
  simp only [date_formats, List.mem_cons, List.not_mem_nil, or_false] at hf
  rcases hf with rfl | rfl | rfl | rfl | rfl | rfl | rfl | rfl | rfl | rfl | rfl | rfl
  · have hfd : formatDate ⟨DField.day, DField.mon, DField.year, '-'⟩ y m d
        = pad2 d ++ (('-' :: pad2 m) ++ ('-' :: pad4 y)) := by
      unfold formatDate fieldStr
      dsimp only
      try rw [hofs]
      try rw [List.append_assoc]
      try rw [List.cons_append]
      try rfl
    rw [hfd]
    have hstrip : pyStrip (pad2 d ++ (('-' :: pad2 m) ++ ('-' :: pad4 y)))
        = pad2 d ++ (('-' :: pad2 m) ++ ('-' :: pad4 y)) :=
      pyStrip_id_of _ (token_nospace '-' (by decide) _ _ _
        (pad2_nospace d (by omega)) (pad2_nospace m (by omega)) (pad4_nospace y (by omega)))
    have htf1 : tryFormat ⟨DField.day, DField.mon, DField.year, '-'⟩
        (pad2 d ++ (('-' :: pad2 m) ++ ('-' :: pad4 y)))
        = some (y, m, d) := by
      unfold tryFormat
      dsimp only
      rw [splitOn_three '-' _ _ _ (pad2_not_mem d (by omega) '-' hdig_dash)
        (pad2_not_mem m (by omega) '-' hdig_dash) (pad4_not_mem y (by omega) '-' hdig_dash)]
      dsimp only
      rw [parseField_day_pad2 d hd1 hd31, parseField_mon_pad2_some m hm1 hm12, parseField_year_pad4 y h9999]
      show (if 1 ≤ y ∧ y ≤ 9999 ∧ 1 ≤ m ∧ m ≤ 12 ∧ 1 ≤ d ∧ d ≤ daysInMonth y m
          then some (y, m, d) else none) = some (y, m, d)
      rw [if_pos ⟨by omega, h9999, hm1, hm12, hd1, hdm⟩]
    unfold parse_date
    simp only [date_formats, tryFormats, hstrip, htf1]
    rfl
  · have hfd : formatDate ⟨DField.day, DField.mon, DField.year, '/'⟩ y m d
        = pad2 d ++ (('/' :: pad2 m) ++ ('/' :: pad4 y)) := by
      unfold formatDate fieldStr
      dsimp only
      try rw [hofs]
      try rw [List.append_assoc]
      try rw [List.cons_append]
      try rfl
    rw [hfd]
    have hstrip : pyStrip (pad2 d ++ (('/' :: pad2 m) ++ ('/' :: pad4 y)))
        = pad2 d ++ (('/' :: pad2 m) ++ ('/' :: pad4 y)) :=
      pyStrip_id_of _ (token_nospace '/' (by decide) _ _ _
        (pad2_nospace d (by omega)) (pad2_nospace m (by omega)) (pad4_nospace y (by omega)))
    have htf1 : tryFormat ⟨DField.day, DField.mon, DField.year, '-'⟩
        (pad2 d ++ (('/' :: pad2 m) ++ ('/' :: pad4 y))) = none :=
      tryFormat_nosep _ _ (not_mem_token '-' '/' (by decide) _ _ _
        (pad2_not_mem d (by omega) '-' hdig_dash) (pad2_not_mem m (by omega) '-' hdig_dash) (pad4_not_mem y (by omega) '-' hdig_dash))
    have htf2 : tryFormat ⟨DField.day, DField.mon, DField.year, '/'⟩
        (pad2 d ++ (('/' :: pad2 m) ++ ('/' :: pad4 y)))
        = some (y, m, d) := by
      unfold tryFormat
      dsimp only
      rw [splitOn_three '/' _ _ _ (pad2_not_mem d (by omega) '/' hdig_slash)
        (pad2_not_mem m (by omega) '/' hdig_slash) (pad4_not_mem y (by omega) '/' hdig_slash)]
      dsimp only
      rw [parseField_day_pad2 d hd1 hd31, parseField_mon_pad2_some m hm1 hm12, parseField_year_pad4 y h9999]
      show (if 1 ≤ y ∧ y ≤ 9999 ∧ 1 ≤ m ∧ m ≤ 12 ∧ 1 ≤ d ∧ d ≤ daysInMonth y m
          then some (y, m, d) else none) = some (y, m, d)
      rw [if_pos ⟨by omega, h9999, hm1, hm12, hd1, hdm⟩]
    unfold parse_date
    simp only [date_formats, tryFormats, hstrip, htf1, htf2]
    rfl
  · rcases hnum ⟨rfl, rfl⟩ with hmd | h12d
    · subst hmd
      have hfd : formatDate ⟨DField.mon, DField.day, DField.year, '-'⟩ y d d
          = pad2 d ++ (('-' :: pad2 d) ++ ('-' :: pad4 y)) := by
        unfold formatDate fieldStr
        dsimp only
        try rw [hofs]
        try rw [List.append_assoc]
        try rw [List.cons_append]
        try rfl
      rw [hfd]
      have hstrip : pyStrip (pad2 d ++ (('-' :: pad2 d) ++ ('-' :: pad4 y)))
          = pad2 d ++ (('-' :: pad2 d) ++ ('-' :: pad4 y)) :=
        pyStrip_id_of _ (token_nospace '-' (by decide) _ _ _
          (pad2_nospace d (by omega)) (pad2_nospace d (by omega)) (pad4_nospace y (by omega)))
      have htf1 : tryFormat ⟨DField.day, DField.mon, DField.year, '-'⟩
          (pad2 d ++ (('-' :: pad2 d) ++ ('-' :: pad4 y)))
          = some (y, d, d) := by
        unfold tryFormat
        dsimp only
        rw [splitOn_three '-' _ _ _ (pad2_not_mem d (by omega) '-' hdig_dash)
          (pad2_not_mem d (by omega) '-' hdig_dash) (pad4_not_mem y (by omega) '-' hdig_dash)]
        dsimp only
        rw [parseField_day_pad2 d hd1 hd31, parseField_mon_pad2_some d hd1 hm12, parseField_year_pad4 y h9999]
        show (if 1 ≤ y ∧ y ≤ 9999 ∧ 1 ≤ d ∧ d ≤ 12 ∧ 1 ≤ d ∧ d ≤ daysInMonth y d
            then some (y, d, d) else none) = some (y, d, d)
        rw [if_pos ⟨by omega, h9999, hd1, hm12, hd1, hdm⟩]
      unfold parse_date
      simp only [date_formats, tryFormats, hstrip, htf1]
      rfl
    · have hfd : formatDate ⟨DField.mon, DField.day, DField.year, '-'⟩ y m d
          = pad2 m ++ (('-' :: pad2 d) ++ ('-' :: pad4 y)) := by
        unfold formatDate fieldStr
        dsimp only
        try rw [hofs]
        try rw [List.append_assoc]
        try rw [List.cons_append]
        try rfl
      rw [hfd]
      have hstrip : pyStrip (pad2 m ++ (('-' :: pad2 d) ++ ('-' :: pad4 y)))
          = pad2 m ++ (('-' :: pad2 d) ++ ('-' :: pad4 y)) :=
        pyStrip_id_of _ (token_nospace '-' (by decide) _ _ _
          (pad2_nospace m (by omega)) (pad2_nospace d (by omega)) (pad4_nospace y (by omega)))
      have htf1 : tryFormat ⟨DField.day, DField.mon, DField.year, '-'⟩
          (pad2 m ++ (('-' :: pad2 d) ++ ('-' :: pad4 y))) = none := by
        unfold tryFormat
        dsimp only
        rw [splitOn_three '-' _ _ _ (pad2_not_mem m (by omega) '-' hdig_dash)
          (pad2_not_mem d (by omega) '-' hdig_dash) (pad4_not_mem y (by omega) '-' hdig_dash)]
        dsimp only
        rw [parseField_day_pad2 m hm1 (by omega), parseField_mon_pad2_none d h12d (by omega)]
      have htf2 : tryFormat ⟨DField.day, DField.mon, DField.year, '/'⟩
          (pad2 m ++ (('-' :: pad2 d) ++ ('-' :: pad4 y))) = none :=
        tryFormat_nosep _ _ (not_mem_token '/' '-' (by decide) _ _ _
          (pad2_not_mem m (by omega) '/' hdig_slash) (pad2_not_mem d (by omega) '/' hdig_slash) (pad4_not_mem y (by omega) '/' hdig_slash))
      have htf3 : tryFormat ⟨DField.mon, DField.day, DField.year, '-'⟩
          (pad2 m ++ (('-' :: pad2 d) ++ ('-' :: pad4 y)))
          = some (y, m, d) := by
        unfold tryFormat
        dsimp only
        rw [splitOn_three '-' _ _ _ (pad2_not_mem m (by omega) '-' hdig_dash)
          (pad2_not_mem d (by omega) '-' hdig_dash) (pad4_not_mem y (by omega) '-' hdig_dash)]
        dsimp only
        rw [parseField_mon_pad2_some m hm1 hm12, parseField_day_pad2 d hd1 hd31, parseField_year_pad4 y h9999]
        show (if 1 ≤ y ∧ y ≤ 9999 ∧ 1 ≤ m ∧ m ≤ 12 ∧ 1 ≤ d ∧ d ≤ daysInMonth y m
            then some (y, m, d) else none) = some (y, m, d)
        rw [if_pos ⟨by omega, h9999, hm1, hm12, hd1, hdm⟩]
      unfold parse_date
      simp only [date_formats, tryFormats, hstrip, htf1, htf2, htf3]
      rfl
  · rcases hnum ⟨rfl, rfl⟩ with hmd | h12d
    · subst hmd
      have hfd : formatDate ⟨DField.mon, DField.day, DField.year, '/'⟩ y d d
          = pad2 d ++ (('/' :: pad2 d) ++ ('/' :: pad4 y)) := by
        unfold formatDate fieldStr
        dsimp only
        try rw [hofs]
        try rw [List.append_assoc]
        try rw [List.cons_append]
        try rfl
      rw [hfd]
      have hstrip : pyStrip (pad2 d ++ (('/' :: pad2 d) ++ ('/' :: pad4 y)))
          = pad2 d ++ (('/' :: pad2 d) ++ ('/' :: pad4 y)) :=
        pyStrip_id_of _ (token_nospace '/' (by decide) _ _ _
          (pad2_nospace d (by omega)) (pad2_nospace d (by omega)) (pad4_nospace y (by omega)))
      have htf1 : tryFormat ⟨DField.day, DField.mon, DField.year, '-'⟩
          (pad2 d ++ (('/' :: pad2 d) ++ ('/' :: pad4 y))) = none :=
        tryFormat_nosep _ _ (not_mem_token '-' '/' (by decide) _ _ _
          (pad2_not_mem d (by omega) '-' hdig_dash) (pad2_not_mem d (by omega) '-' hdig_dash) (pad4_not_mem y (by omega) '-' hdig_dash))
      have htf2 : tryFormat ⟨DField.day, DField.mon, DField.year, '/'⟩
          (pad2 d ++ (('/' :: pad2 d) ++ ('/' :: pad4 y)))
          = some (y, d, d) := by
        unfold tryFormat
        dsimp only
        rw [splitOn_three '/' _ _ _ (pad2_not_mem d (by omega) '/' hdig_slash)
          (pad2_not_mem d (by omega) '/' hdig_slash) (pad4_not_mem y (by omega) '/' hdig_slash)]
        dsimp only
        rw [parseField_day_pad2 d hd1 hd31, parseField_mon_pad2_some d hd1 hm12, parseField_year_pad4 y h9999]
        show (if 1 ≤ y ∧ y ≤ 9999 ∧ 1 ≤ d ∧ d ≤ 12 ∧ 1 ≤ d ∧ d ≤ daysInMonth y d
            then some (y, d, d) else none) = some (y, d, d)
        rw [if_pos ⟨by omega, h9999, hd1, hm12, hd1, hdm⟩]
      unfold parse_date
      simp only [date_formats, tryFormats, hstrip, htf1, htf2]
      rfl
    · have hfd : formatDate ⟨DField.mon, DField.day, DField.year, '/'⟩ y m d
          = pad2 m ++ (('/' :: pad2 d) ++ ('/' :: pad4 y)) := by
        unfold formatDate fieldStr
        dsimp only
        try rw [hofs]
        try rw [List.append_assoc]
        try rw [List.cons_append]
        try rfl
      rw [hfd]
      have hstrip : pyStrip (pad2 m ++ (('/' :: pad2 d) ++ ('/' :: pad4 y)))
          = pad2 m ++ (('/' :: pad2 d) ++ ('/' :: pad4 y)) :=
        pyStrip_id_of _ (token_nospace '/' (by decide) _ _ _
          (pad2_nospace m (by omega)) (pad2_nospace d (by omega)) (pad4_nospace y (by omega)))
      have htf1 : tryFormat ⟨DField.day, DField.mon, DField.year, '-'⟩
          (pad2 m ++ (('/' :: pad2 d) ++ ('/' :: pad4 y))) = none :=
        tryFormat_nosep _ _ (not_mem_token '-' '/' (by decide) _ _ _
          (pad2_not_mem m (by omega) '-' hdig_dash) (pad2_not_mem d (by omega) '-' hdig_dash) (pad4_not_mem y (by omega) '-' hdig_dash))
      have htf2 : tryFormat ⟨DField.day, DField.mon, DField.year, '/'⟩
          (pad2 m ++ (('/' :: pad2 d) ++ ('/' :: pad4 y))) = none := by
        unfold tryFormat
        dsimp only
        rw [splitOn_three '/' _ _ _ (pad2_not_mem m (by omega) '/' hdig_slash)
          (pad2_not_mem d (by omega) '/' hdig_slash) (pad4_not_mem y (by omega) '/' hdig_slash)]
        dsimp only
        rw [parseField_day_pad2 m hm1 (by omega), parseField_mon_pad2_none d h12d (by omega)]
      have htf3 : tryFormat ⟨DField.mon, DField.day, DField.year, '-'⟩
          (pad2 m ++ (('/' :: pad2 d) ++ ('/' :: pad4 y))) = none :=
        tryFormat_nosep _ _ (not_mem_token '-' '/' (by decide) _ _ _
          (pad2_not_mem m (by omega) '-' hdig_dash) (pad2_not_mem d (by omega) '-' hdig_dash) (pad4_not_mem y (by omega) '-' hdig_dash))
      have htf4 : tryFormat ⟨DField.mon, DField.day, DField.year, '/'⟩
          (pad2 m ++ (('/' :: pad2 d) ++ ('/' :: pad4 y)))
          = some (y, m, d) := by
        unfold tryFormat
        dsimp only
        rw [splitOn_three '/' _ _ _ (pad2_not_mem m (by omega) '/' hdig_slash)
          (pad2_not_mem d (by omega) '/' hdig_slash) (pad4_not_mem y (by omega) '/' hdig_slash)]
        dsimp only
        rw [parseField_mon_pad2_some m hm1 hm12, parseField_day_pad2 d hd1 hd31, parseField_year_pad4 y h9999]
        show (if 1 ≤ y ∧ y ≤ 9999 ∧ 1 ≤ m ∧ m ≤ 12 ∧ 1 ≤ d ∧ d ≤ daysInMonth y m
            then some (y, m, d) else none) = some (y, m, d)
        rw [if_pos ⟨by omega, h9999, hm1, hm12, hd1, hdm⟩]
      unfold parse_date
      simp only [date_formats, tryFormats, hstrip, htf1, htf2, htf3, htf4]
      rfl
  · have hfd : formatDate ⟨DField.year, DField.mon, DField.day, '-'⟩ y m d
        = pad4 y ++ (('-' :: pad2 m) ++ ('-' :: pad2 d)) := by
      unfold formatDate fieldStr
      dsimp only
      try rw [hofs]
      try rw [List.append_assoc]
      try rw [List.cons_append]
      try rfl
    rw [hfd]
    have hstrip : pyStrip (pad4 y ++ (('-' :: pad2 m) ++ ('-' :: pad2 d)))
        = pad4 y ++ (('-' :: pad2 m) ++ ('-' :: pad2 d)) :=
      pyStrip_id_of _ (token_nospace '-' (by decide) _ _ _
        (pad4_nospace y (by omega)) (pad2_nospace m (by omega)) (pad2_nospace d (by omega)))
    have htf1 : tryFormat ⟨DField.day, DField.mon, DField.year, '-'⟩
        (pad4 y ++ (('-' :: pad2 m) ++ ('-' :: pad2 d))) = none := by
      unfold tryFormat
      dsimp only
      rw [splitOn_three '-' _ _ _ (pad4_not_mem y (by omega) '-' hdig_dash)
        (pad2_not_mem m (by omega) '-' hdig_dash) (pad2_not_mem d (by omega) '-' hdig_dash)]
      dsimp only
      rw [parseField_day_pad4_none y]
    have htf2 : tryFormat ⟨DField.day, DField.mon, DField.year, '/'⟩
        (pad4 y ++ (('-' :: pad2 m) ++ ('-' :: pad2 d))) = none :=
      tryFormat_nosep _ _ (not_mem_token '/' '-' (by decide) _ _ _
        (pad4_not_mem y (by omega) '/' hdig_slash) (pad2_not_mem m (by omega) '/' hdig_slash) (pad2_not_mem d (by omega) '/' hdig_slash))
    have htf3 : tryFormat ⟨DField.mon, DField.day, DField.year, '-'⟩
        (pad4 y ++ (('-' :: pad2 m) ++ ('-' :: pad2 d))) = none := by
      unfold tryFormat
      dsimp only
      rw [splitOn_three '-' _ _ _ (pad4_not_mem y (by omega) '-' hdig_dash)
        (pad2_not_mem m (by omega) '-' hdig_dash) (pad2_not_mem d (by omega) '-' hdig_dash)]
      dsimp only
      rw [parseField_mon_pad4_none y]
    have htf4 : tryFormat ⟨DField.mon, DField.day, DField.year, '/'⟩
        (pad4 y ++ (('-' :: pad2 m) ++ ('-' :: pad2 d))) = none :=
      tryFormat_nosep _ _ (not_mem_token '/' '-' (by decide) _ _ _
        (pad4_not_mem y (by omega) '/' hdig_slash) (pad2_not_mem m (by omega) '/' hdig_slash) (pad2_not_mem d (by omega) '/' hdig_slash))
    have htf5 : tryFormat ⟨DField.year, DField.mon, DField.day, '-'⟩
        (pad4 y ++ (('-' :: pad2 m) ++ ('-' :: pad2 d)))
        = some (y, m, d) := by
      unfold tryFormat
      dsimp only
      rw [splitOn_three '-' _ _ _ (pad4_not_mem y (by omega) '-' hdig_dash)
        (pad2_not_mem m (by omega) '-' hdig_dash) (pad2_not_mem d (by omega) '-' hdig_dash)]
      dsimp only
      rw [parseField_year_pad4 y h9999, parseField_mon_pad2_some m hm1 hm12, parseField_day_pad2 d hd1 hd31]
      show (if 1 ≤ y ∧ y ≤ 9999 ∧ 1 ≤ m ∧ m ≤ 12 ∧ 1 ≤ d ∧ d ≤ daysInMonth y m
          then some (y, m, d) else none) = some (y, m, d)
      rw [if_pos ⟨by omega, h9999, hm1, hm12, hd1, hdm⟩]
    unfold parse_date
    simp only [date_formats, tryFormats, hstrip, htf1, htf2, htf3, htf4, htf5]
    rfl
  · have hfd : formatDate ⟨DField.year, DField.mon, DField.day, '/'⟩ y m d
        = pad4 y ++ (('/' :: pad2 m) ++ ('/' :: pad2 d)) := by
      unfold formatDate fieldStr
      dsimp only
      try rw [hofs]
      try rw [List.append_assoc]
      try rw [List.cons_append]
      try rfl
    rw [hfd]
    have hstrip : pyStrip (pad4 y ++ (('/' :: pad2 m) ++ ('/' :: pad2 d)))
        = pad4 y ++ (('/' :: pad2 m) ++ ('/' :: pad2 d)) :=
      pyStrip_id_of _ (token_nospace '/' (by decide) _ _ _
        (pad4_nospace y (by omega)) (pad2_nospace m (by omega)) (pad2_nospace d (by omega)))
    have htf1 : tryFormat ⟨DField.day, DField.mon, DField.year, '-'⟩
        (pad4 y ++ (('/' :: pad2 m) ++ ('/' :: pad2 d))) = none :=
      tryFormat_nosep _ _ (not_mem_token '-' '/' (by decide) _ _ _
        (pad4_not_mem y (by omega) '-' hdig_dash) (pad2_not_mem m (by omega) '-' hdig_dash) (pad2_not_mem d (by omega) '-' hdig_dash))
    have htf2 : tryFormat ⟨DField.day, DField.mon, DField.year, '/'⟩
        (pad4 y ++ (('/' :: pad2 m) ++ ('/' :: pad2 d))) = none := by
      unfold tryFormat
      dsimp only
      rw [splitOn_three '/' _ _ _ (pad4_not_mem y (by omega) '/' hdig_slash)
        (pad2_not_mem m (by omega) '/' hdig_slash) (pad2_not_mem d (by omega) '/' hdig_slash)]
      dsimp only
      rw [parseField_day_pad4_none y]
    have htf3 : tryFormat ⟨DField.mon, DField.day, DField.year, '-'⟩
        (pad4 y ++ (('/' :: pad2 m) ++ ('/' :: pad2 d))) = none :=
      tryFormat_nosep _ _ (not_mem_token '-' '/' (by decide) _ _ _
        (pad4_not_mem y (by omega) '-' hdig_dash) (pad2_not_mem m (by omega) '-' hdig_dash) (pad2_not_mem d (by omega) '-' hdig_dash))
    have htf4 : tryFormat ⟨DField.mon, DField.day, DField.year, '/'⟩
        (pad4 y ++ (('/' :: pad2 m) ++ ('/' :: pad2 d))) = none := by
      unfold tryFormat
      dsimp only
      rw [splitOn_three '/' _ _ _ (pad4_not_mem y (by omega) '/' hdig_slash)
        (pad2_not_mem m (by omega) '/' hdig_slash) (pad2_not_mem d (by omega) '/' hdig_slash)]
      dsimp only
      rw [parseField_mon_pad4_none y]
    have htf5 : tryFormat ⟨DField.year, DField.mon, DField.day, '-'⟩
        (pad4 y ++ (('/' :: pad2 m) ++ ('/' :: pad2 d))) = none :=
      tryFormat_nosep _ _ (not_mem_token '-' '/' (by decide) _ _ _
        (pad4_not_mem y (by omega) '-' hdig_dash) (pad2_not_mem m (by omega) '-' hdig_dash) (pad2_not_mem d (by omega) '-' hdig_dash))
    have htf6 : tryFormat ⟨DField.year, DField.mon, DField.day, '/'⟩
        (pad4 y ++ (('/' :: pad2 m) ++ ('/' :: pad2 d)))
        = some (y, m, d) := by
      unfold tryFormat
      dsimp only
      rw [splitOn_three '/' _ _ _ (pad4_not_mem y (by omega) '/' hdig_slash)
        (pad2_not_mem m (by omega) '/' hdig_slash) (pad2_not_mem d (by omega) '/' hdig_slash)]
      dsimp only
      rw [parseField_year_pad4 y h9999, parseField_mon_pad2_some m hm1 hm12, parseField_day_pad2 d hd1 hd31]
      show (if 1 ≤ y ∧ y ≤ 9999 ∧ 1 ≤ m ∧ m ≤ 12 ∧ 1 ≤ d ∧ d ≤ daysInMonth y m
          then some (y, m, d) else none) = some (y, m, d)
      rw [if_pos ⟨by omega, h9999, hm1, hm12, hd1, hdm⟩]
    unfold parse_date
    simp only [date_formats, tryFormats, hstrip, htf1, htf2, htf3, htf4, htf5, htf6]
    rfl
  · have hfd : formatDate ⟨DField.day, DField.monAbbr, DField.year, '-'⟩ y m d
        = pad2 d ++ (('-' :: monAbbrsCap.getD (m - 1) []) ++ ('-' :: pad4 y)) := by
      unfold formatDate fieldStr
      dsimp only
      try rw [hofs]
      try rw [List.append_assoc]
      try rw [List.cons_append]
      try rfl
    rw [hfd]
    have hstrip : pyStrip (pad2 d ++ (('-' :: monAbbrsCap.getD (m - 1) []) ++ ('-' :: pad4 y)))
        = pad2 d ++ (('-' :: monAbbrsCap.getD (m - 1) []) ++ ('-' :: pad4 y)) :=
      pyStrip_id_of _ (token_nospace '-' (by decide) _ _ _
        (pad2_nospace d (by omega)) hA_nospace (pad4_nospace y (by omega)))
    have htf1 : tryFormat ⟨DField.day, DField.mon, DField.year, '-'⟩
        (pad2 d ++ (('-' :: monAbbrsCap.getD (m - 1) []) ++ ('-' :: pad4 y))) = none := by
      unfold tryFormat
      dsimp only
      rw [splitOn_three '-' _ _ _ (pad2_not_mem d (by omega) '-' hdig_dash)
        hA_ndash (pad4_not_mem y (by omega) '-' hdig_dash)]
      dsimp only
      rw [parseField_day_pad2 d hd1 hd31, hA_mon]
    have htf2 : tryFormat ⟨DField.day, DField.mon, DField.year, '/'⟩
        (pad2 d ++ (('-' :: monAbbrsCap.getD (m - 1) []) ++ ('-' :: pad4 y))) = none :=
      tryFormat_nosep _ _ (not_mem_token '/' '-' (by decide) _ _ _
        (pad2_not_mem d (by omega) '/' hdig_slash) hA_nslash (pad4_not_mem y (by omega) '/' hdig_slash))
    have htf3 : tryFormat ⟨DField.mon, DField.day, DField.year, '-'⟩
        (pad2 d ++ (('-' :: monAbbrsCap.getD (m - 1) []) ++ ('-' :: pad4 y))) = none := by
      unfold tryFormat
      dsimp only
      rw [splitOn_three '-' _ _ _ (pad2_not_mem d (by omega) '-' hdig_dash)
        hA_ndash (pad4_not_mem y (by omega) '-' hdig_dash)]
      dsimp only
      rw [hA_day]
      rcases parseField DField.mon (pad2 d) with _ | v <;> rfl
    have htf4 : tryFormat ⟨DField.mon, DField.day, DField.year, '/'⟩
        (pad2 d ++ (('-' :: monAbbrsCap.getD (m - 1) []) ++ ('-' :: pad4 y))) = none :=
      tryFormat_nosep _ _ (not_mem_token '/' '-' (by decide) _ _ _
        (pad2_not_mem d (by omega) '/' hdig_slash) hA_nslash (pad4_not_mem y (by omega) '/' hdig_slash))
    have htf5 : tryFormat ⟨DField.year, DField.mon, DField.day, '-'⟩
        (pad2 d ++ (('-' :: monAbbrsCap.getD (m - 1) []) ++ ('-' :: pad4 y))) = none := by
      unfold tryFormat
      dsimp only
      rw [splitOn_three '-' _ _ _ (pad2_not_mem d (by omega) '-' hdig_dash)
        hA_ndash (pad4_not_mem y (by omega) '-' hdig_dash)]
      dsimp only
      rw [parseField_year_pad2_none d]
    have htf6 : tryFormat ⟨DField.year, DField.mon, DField.day, '/'⟩
        (pad2 d ++ (('-' :: monAbbrsCap.getD (m - 1) []) ++ ('-' :: pad4 y))) = none :=
      tryFormat_nosep _ _ (not_mem_token '/' '-' (by decide) _ _ _
        (pad2_not_mem d (by omega) '/' hdig_slash) hA_nslash (pad4_not_mem y (by omega) '/' hdig_slash))
    have htf7 : tryFormat ⟨DField.day, DField.monAbbr, DField.year, '-'⟩
        (pad2 d ++ (('-' :: monAbbrsCap.getD (m - 1) []) ++ ('-' :: pad4 y)))
        = some (y, m, d) := by
      unfold tryFormat
      dsimp only
      rw [splitOn_three '-' _ _ _ (pad2_not_mem d (by omega) '-' hdig_dash)
        hA_ndash (pad4_not_mem y (by omega) '-' hdig_dash)]
      dsimp only
      rw [parseField_day_pad2 d hd1 hd31, hA_abbr, parseField_year_pad4 y h9999]
      show (if 1 ≤ y ∧ y ≤ 9999 ∧ 1 ≤ m ∧ m ≤ 12 ∧ 1 ≤ d ∧ d ≤ daysInMonth y m
          then some (y, m, d) else none) = some (y, m, d)
      rw [if_pos ⟨by omega, h9999, hm1, hm12, hd1, hdm⟩]
    unfold parse_date
    simp only [date_formats, tryFormats, hstrip, htf1, htf2, htf3, htf4, htf5, htf6, htf7]
    rfl
  · have hfd : formatDate ⟨DField.day, DField.monAbbr, DField.year, '/'⟩ y m d
        = pad2 d ++ (('/' :: monAbbrsCap.getD (m - 1) []) ++ ('/' :: pad4 y)) := by
      unfold formatDate fieldStr
      dsimp only
      try rw [hofs]
      try rw [List.append_assoc]
      try rw [List.cons_append]
      try rfl
    rw [hfd]
    have hstrip : pyStrip (pad2 d ++ (('/' :: monAbbrsCap.getD (m - 1) []) ++ ('/' :: pad4 y)))
        = pad2 d ++ (('/' :: monAbbrsCap.getD (m - 1) []) ++ ('/' :: pad4 y)) :=
      pyStrip_id_of _ (token_nospace '/' (by decide) _ _ _
        (pad2_nospace d (by omega)) hA_nospace (pad4_nospace y (by omega)))
    have htf1 : tryFormat ⟨DField.day, DField.mon, DField.year, '-'⟩
        (pad2 d ++ (('/' :: monAbbrsCap.getD (m - 1) []) ++ ('/' :: pad4 y))) = none :=
      tryFormat_nosep _ _ (not_mem_token '-' '/' (by decide) _ _ _
        (pad2_not_mem d (by omega) '-' hdig_dash) hA_ndash (pad4_not_mem y (by omega) '-' hdig_dash))
    have htf2 : tryFormat ⟨DField.day, DField.mon, DField.year, '/'⟩
        (pad2 d ++ (('/' :: monAbbrsCap.getD (m - 1) []) ++ ('/' :: pad4 y))) = none := by
      unfold tryFormat
      dsimp only
      rw [splitOn_three '/' _ _ _ (pad2_not_mem d (by omega) '/' hdig_slash)
        hA_nslash (pad4_not_mem y (by omega) '/' hdig_slash)]
      dsimp only
      rw [parseField_day_pad2 d hd1 hd31, hA_mon]
    have htf3 : tryFormat ⟨DField.mon, DField.day, DField.year, '-'⟩
        (pad2 d ++ (('/' :: monAbbrsCap.getD (m - 1) []) ++ ('/' :: pad4 y))) = none :=
      tryFormat_nosep _ _ (not_mem_token '-' '/' (by decide) _ _ _
        (pad2_not_mem d (by omega) '-' hdig_dash) hA_ndash (pad4_not_mem y (by omega) '-' hdig_dash))
    have htf4 : tryFormat ⟨DField.mon, DField.day, DField.year, '/'⟩
        (pad2 d ++ (('/' :: monAbbrsCap.getD (m - 1) []) ++ ('/' :: pad4 y))) = none := by
      unfold tryFormat
      dsimp only
      rw [splitOn_three '/' _ _ _ (pad2_not_mem d (by omega) '/' hdig_slash)
        hA_nslash (pad4_not_mem y (by omega) '/' hdig_slash)]
      dsimp only
      rw [hA_day]
      rcases parseField DField.mon (pad2 d) with _ | v <;> rfl
    have htf5 : tryFormat ⟨DField.year, DField.mon, DField.day, '-'⟩
        (pad2 d ++ (('/' :: monAbbrsCap.getD (m - 1) []) ++ ('/' :: pad4 y))) = none :=
      tryFormat_nosep _ _ (not_mem_token '-' '/' (by decide) _ _ _
        (pad2_not_mem d (by omega) '-' hdig_dash) hA_ndash (pad4_not_mem y (by omega) '-' hdig_dash))
    have htf6 : tryFormat ⟨DField.year, DField.mon, DField.day, '/'⟩
        (pad2 d ++ (('/' :: monAbbrsCap.getD (m - 1) []) ++ ('/' :: pad4 y))) = none := by
      unfold tryFormat
      dsimp only
      rw [splitOn_three '/' _ _ _ (pad2_not_mem d (by omega) '/' hdig_slash)
        hA_nslash (pad4_not_mem y (by omega) '/' hdig_slash)]
      dsimp only
      rw [parseField_year_pad2_none d]
    have htf7 : tryFormat ⟨DField.day, DField.monAbbr, DField.year, '-'⟩
        (pad2 d ++ (('/' :: monAbbrsCap.getD (m - 1) []) ++ ('/' :: pad4 y))) = none :=
      tryFormat_nosep _ _ (not_mem_token '-' '/' (by decide) _ _ _
        (pad2_not_mem d (by omega) '-' hdig_dash) hA_ndash (pad4_not_mem y (by omega) '-' hdig_dash))
    have htf8 : tryFormat ⟨DField.day, DField.monAbbr, DField.year, '/'⟩
        (pad2 d ++ (('/' :: monAbbrsCap.getD (m - 1) []) ++ ('/' :: pad4 y)))
        = some (y, m, d) := by
      unfold tryFormat
      dsimp only
      rw [splitOn_three '/' _ _ _ (pad2_not_mem d (by omega) '/' hdig_slash)
        hA_nslash (pad4_not_mem y (by omega) '/' hdig_slash)]
      dsimp only
      rw [parseField_day_pad2 d hd1 hd31, hA_abbr, parseField_year_pad4 y h9999]
      show (if 1 ≤ y ∧ y ≤ 9999 ∧ 1 ≤ m ∧ m ≤ 12 ∧ 1 ≤ d ∧ d ≤ daysInMonth y m
          then some (y, m, d) else none) = some (y, m, d)
      rw [if_pos ⟨by omega, h9999, hm1, hm12, hd1, hdm⟩]
    unfold parse_date
    simp only [date_formats, tryFormats, hstrip, htf1, htf2, htf3, htf4, htf5, htf6, htf7, htf8]
    rfl
  · have hfd : formatDate ⟨DField.monAbbr, DField.day, DField.year, '-'⟩ y m d
        = monAbbrsCap.getD (m - 1) [] ++ (('-' :: pad2 d) ++ ('-' :: pad4 y)) := by
      unfold formatDate fieldStr
      dsimp only
      try rw [hofs]
      try rw [List.append_assoc]
      try rw [List.cons_append]
      try rfl
    rw [hfd]
    have hstrip : pyStrip (monAbbrsCap.getD (m - 1) [] ++ (('-' :: pad2 d) ++ ('-' :: pad4 y)))
        = monAbbrsCap.getD (m - 1) [] ++ (('-' :: pad2 d) ++ ('-' :: pad4 y)) :=
      pyStrip_id_of _ (token_nospace '-' (by decide) _ _ _
        hA_nospace (pad2_nospace d (by omega)) (pad4_nospace y (by omega)))
    have htf1 : tryFormat ⟨DField.day, DField.mon, DField.year, '-'⟩
        (monAbbrsCap.getD (m - 1) [] ++ (('-' :: pad2 d) ++ ('-' :: pad4 y))) = none := by
      unfold tryFormat
      dsimp only
      rw [splitOn_three '-' _ _ _ hA_ndash
        (pad2_not_mem d (by omega) '-' hdig_dash) (pad4_not_mem y (by omega) '-' hdig_dash)]
      dsimp only
      rw [hA_day]
    have htf2 : tryFormat ⟨DField.day, DField.mon, DField.year, '/'⟩
        (monAbbrsCap.getD (m - 1) [] ++ (('-' :: pad2 d) ++ ('-' :: pad4 y))) = none :=
      tryFormat_nosep _ _ (not_mem_token '/' '-' (by decide) _ _ _
        hA_nslash (pad2_not_mem d (by omega) '/' hdig_slash) (pad4_not_mem y (by omega) '/' hdig_slash))
    have htf3 : tryFormat ⟨DField.mon, DField.day, DField.year, '-'⟩
        (monAbbrsCap.getD (m - 1) [] ++ (('-' :: pad2 d) ++ ('-' :: pad4 y))) = none := by
      unfold tryFormat
      dsimp only
      rw [splitOn_three '-' _ _ _ hA_ndash
        (pad2_not_mem d (by omega) '-' hdig_dash) (pad4_not_mem y (by omega) '-' hdig_dash)]
      dsimp only
      rw [hA_mon]
    have htf4 : tryFormat ⟨DField.mon, DField.day, DField.year, '/'⟩
        (monAbbrsCap.getD (m - 1) [] ++ (('-' :: pad2 d) ++ ('-' :: pad4 y))) = none :=
      tryFormat_nosep _ _ (not_mem_token '/' '-' (by decide) _ _ _
        hA_nslash (pad2_not_mem d (by omega) '/' hdig_slash) (pad4_not_mem y (by omega) '/' hdig_slash))
    have htf5 : tryFormat ⟨DField.year, DField.mon, DField.day, '-'⟩
        (monAbbrsCap.getD (m - 1) [] ++ (('-' :: pad2 d) ++ ('-' :: pad4 y))) = none := by
      unfold tryFormat
      dsimp only
      rw [splitOn_three '-' _ _ _ hA_ndash
        (pad2_not_mem d (by omega) '-' hdig_dash) (pad4_not_mem y (by omega) '-' hdig_dash)]
      dsimp only
      rw [hA_year]
    have htf6 : tryFormat ⟨DField.year, DField.mon, DField.day, '/'⟩
        (monAbbrsCap.getD (m - 1) [] ++ (('-' :: pad2 d) ++ ('-' :: pad4 y))) = none :=
      tryFormat_nosep _ _ (not_mem_token '/' '-' (by decide) _ _ _
        hA_nslash (pad2_not_mem d (by omega) '/' hdig_slash) (pad4_not_mem y (by omega) '/' hdig_slash))
    have htf7 : tryFormat ⟨DField.day, DField.monAbbr, DField.year, '-'⟩
        (monAbbrsCap.getD (m - 1) [] ++ (('-' :: pad2 d) ++ ('-' :: pad4 y))) = none := by
      unfold tryFormat
      dsimp only
      rw [splitOn_three '-' _ _ _ hA_ndash
        (pad2_not_mem d (by omega) '-' hdig_dash) (pad4_not_mem y (by omega) '-' hdig_dash)]
      dsimp only
      rw [hA_day]
    have htf8 : tryFormat ⟨DField.day, DField.monAbbr, DField.year, '/'⟩
        (monAbbrsCap.getD (m - 1) [] ++ (('-' :: pad2 d) ++ ('-' :: pad4 y))) = none :=
      tryFormat_nosep _ _ (not_mem_token '/' '-' (by decide) _ _ _
        hA_nslash (pad2_not_mem d (by omega) '/' hdig_slash) (pad4_not_mem y (by omega) '/' hdig_slash))
    have htf9 : tryFormat ⟨DField.monAbbr, DField.day, DField.year, '-'⟩
        (monAbbrsCap.getD (m - 1) [] ++ (('-' :: pad2 d) ++ ('-' :: pad4 y)))
        = some (y, m, d) := by
      unfold tryFormat
      dsimp only
      rw [splitOn_three '-' _ _ _ hA_ndash
        (pad2_not_mem d (by omega) '-' hdig_dash) (pad4_not_mem y (by omega) '-' hdig_dash)]
      dsimp only
      rw [hA_abbr, parseField_day_pad2 d hd1 hd31, parseField_year_pad4 y h9999]
      show (if 1 ≤ y ∧ y ≤ 9999 ∧ 1 ≤ m ∧ m ≤ 12 ∧ 1 ≤ d ∧ d ≤ daysInMonth y m
          then some (y, m, d) else none) = some (y, m, d)
      rw [if_pos ⟨by omega, h9999, hm1, hm12, hd1, hdm⟩]
    unfold parse_date
    simp only [date_formats, tryFormats, hstrip, htf1, htf2, htf3, htf4, htf5, htf6, htf7, htf8, htf9]
    rfl
  · have hfd : formatDate ⟨DField.monAbbr, DField.day, DField.year, '/'⟩ y m d
        = monAbbrsCap.getD (m - 1) [] ++ (('/' :: pad2 d) ++ ('/' :: pad4 y)) := by
      unfold formatDate fieldStr
      dsimp only
      try rw [hofs]
      try rw [List.append_assoc]
      try rw [List.cons_append]
      try rfl
    rw [hfd]
    have hstrip : pyStrip (monAbbrsCap.getD (m - 1) [] ++ (('/' :: pad2 d) ++ ('/' :: pad4 y)))
        = monAbbrsCap.getD (m - 1) [] ++ (('/' :: pad2 d) ++ ('/' :: pad4 y)) :=
      pyStrip_id_of _ (token_nospace '/' (by decide) _ _ _
        hA_nospace (pad2_nospace d (by omega)) (pad4_nospace y (by omega)))
    have htf1 : tryFormat ⟨DField.day, DField.mon, DField.year, '-'⟩
        (monAbbrsCap.getD (m - 1) [] ++ (('/' :: pad2 d) ++ ('/' :: pad4 y))) = none :=
      tryFormat_nosep _ _ (not_mem_token '-' '/' (by decide) _ _ _
        hA_ndash (pad2_not_mem d (by omega) '-' hdig_dash) (pad4_not_mem y (by omega) '-' hdig_dash))
    have htf2 : tryFormat ⟨DField.day, DField.mon, DField.year, '/'⟩
        (monAbbrsCap.getD (m - 1) [] ++ (('/' :: pad2 d) ++ ('/' :: pad4 y))) = none := by
      unfold tryFormat
      dsimp only
      rw [splitOn_three '/' _ _ _ hA_nslash
        (pad2_not_mem d (by omega) '/' hdig_slash) (pad4_not_mem y (by omega) '/' hdig_slash)]
      dsimp only
      rw [hA_day]
    have htf3 : tryFormat ⟨DField.mon, DField.day, DField.year, '-'⟩
        (monAbbrsCap.getD (m - 1) [] ++ (('/' :: pad2 d) ++ ('/' :: pad4 y))) = none :=
      tryFormat_nosep _ _ (not_mem_token '-' '/' (by decide) _ _ _
        hA_ndash (pad2_not_mem d (by omega) '-' hdig_dash) (pad4_not_mem y (by omega) '-' hdig_dash))
    have htf4 : tryFormat ⟨DField.mon, DField.day, DField.year, '/'⟩
        (monAbbrsCap.getD (m - 1) [] ++ (('/' :: pad2 d) ++ ('/' :: pad4 y))) = none := by
      unfold tryFormat
      dsimp only
      rw [splitOn_three '/' _ _ _ hA_nslash
        (pad2_not_mem d (by omega) '/' hdig_slash) (pad4_not_mem y (by omega) '/' hdig_slash)]
      dsimp only
      rw [hA_mon]
    have htf5 : tryFormat ⟨DField.year, DField.mon, DField.day, '-'⟩
        (monAbbrsCap.getD (m - 1) [] ++ (('/' :: pad2 d) ++ ('/' :: pad4 y))) = none :=
      tryFormat_nosep _ _ (not_mem_token '-' '/' (by decide) _ _ _
        hA_ndash (pad2_not_mem d (by omega) '-' hdig_dash) (pad4_not_mem y (by omega) '-' hdig_dash))
    have htf6 : tryFormat ⟨DField.year, DField.mon, DField.day, '/'⟩
        (monAbbrsCap.getD (m - 1) [] ++ (('/' :: pad2 d) ++ ('/' :: pad4 y))) = none := by
      unfold tryFormat
      dsimp only
      rw [splitOn_three '/' _ _ _ hA_nslash
        (pad2_not_mem d (by omega) '/' hdig_slash) (pad4_not_mem y (by omega) '/' hdig_slash)]
      dsimp only
      rw [hA_year]
    have htf7 : tryFormat ⟨DField.day, DField.monAbbr, DField.year, '-'⟩
        (monAbbrsCap.getD (m - 1) [] ++ (('/' :: pad2 d) ++ ('/' :: pad4 y))) = none :=
      tryFormat_nosep _ _ (not_mem_token '-' '/' (by decide) _ _ _
        hA_ndash (pad2_not_mem d (by omega) '-' hdig_dash) (pad4_not_mem y (by omega) '-' hdig_dash))
    have htf8 : tryFormat ⟨DField.day, DField.monAbbr, DField.year, '/'⟩
        (monAbbrsCap.getD (m - 1) [] ++ (('/' :: pad2 d) ++ ('/' :: pad4 y))) = none := by
      unfold tryFormat
      dsimp only
      rw [splitOn_three '/' _ _ _ hA_nslash
        (pad2_not_mem d (by omega) '/' hdig_slash) (pad4_not_mem y (by omega) '/' hdig_slash)]
      dsimp only
      rw [hA_day]
    have htf9 : tryFormat ⟨DField.monAbbr, DField.day, DField.year, '-'⟩
        (monAbbrsCap.getD (m - 1) [] ++ (('/' :: pad2 d) ++ ('/' :: pad4 y))) = none :=
      tryFormat_nosep _ _ (not_mem_token '-' '/' (by decide) _ _ _
        hA_ndash (pad2_not_mem d (by omega) '-' hdig_dash) (pad4_not_mem y (by omega) '-' hdig_dash))
    have htf10 : tryFormat ⟨DField.monAbbr, DField.day, DField.year, '/'⟩
        (monAbbrsCap.getD (m - 1) [] ++ (('/' :: pad2 d) ++ ('/' :: pad4 y)))
        = some (y, m, d) := by
      unfold tryFormat
      dsimp only
      rw [splitOn_three '/' _ _ _ hA_nslash
        (pad2_not_mem d (by omega) '/' hdig_slash) (pad4_not_mem y (by omega) '/' hdig_slash)]
      dsimp only
      rw [hA_abbr, parseField_day_pad2 d hd1 hd31, parseField_year_pad4 y h9999]
      show (if 1 ≤ y ∧ y ≤ 9999 ∧ 1 ≤ m ∧ m ≤ 12 ∧ 1 ≤ d ∧ d ≤ daysInMonth y m
          then some (y, m, d) else none) = some (y, m, d)
      rw [if_pos ⟨by omega, h9999, hm1, hm12, hd1, hdm⟩]
    unfold parse_date
    simp only [date_formats, tryFormats, hstrip, htf1, htf2, htf3, htf4, htf5, htf6, htf7, htf8, htf9, htf10]
    rfl
  · by_cases hm5 : m = 5
    · subst hm5
      have hfd : formatDate ⟨DField.day, DField.monFull, DField.year, '-'⟩ y 5 d
          = pad2 d ++ (('-' :: monFullsCap.getD (5 - 1) []) ++ ('-' :: pad4 y)) := by
        unfold formatDate fieldStr
        dsimp only
        try rw [hofs]
        try rw [List.append_assoc]
        try rw [List.cons_append]
        try rfl
      rw [hfd]
      have hstrip : pyStrip (pad2 d ++ (('-' :: monFullsCap.getD (5 - 1) []) ++ ('-' :: pad4 y)))
          = pad2 d ++ (('-' :: monFullsCap.getD (5 - 1) []) ++ ('-' :: pad4 y)) :=
        pyStrip_id_of _ (token_nospace '-' (by decide) _ _ _
          (pad2_nospace d (by omega)) hF_nospace (pad4_nospace y (by omega)))
      have htf1 : tryFormat ⟨DField.day, DField.mon, DField.year, '-'⟩
          (pad2 d ++ (('-' :: monFullsCap.getD (5 - 1) []) ++ ('-' :: pad4 y))) = none := by
        unfold tryFormat
        dsimp only
        rw [splitOn_three '-' _ _ _ (pad2_not_mem d (by omega) '-' hdig_dash)
          hF_ndash (pad4_not_mem y (by omega) '-' hdig_dash)]
        dsimp only
        rw [parseField_day_pad2 d hd1 hd31, hF_mon]
      have htf2 : tryFormat ⟨DField.day, DField.mon, DField.year, '/'⟩
          (pad2 d ++ (('-' :: monFullsCap.getD (5 - 1) []) ++ ('-' :: pad4 y))) = none :=
        tryFormat_nosep _ _ (not_mem_token '/' '-' (by decide) _ _ _
          (pad2_not_mem d (by omega) '/' hdig_slash) hF_nslash (pad4_not_mem y (by omega) '/' hdig_slash))
      have htf3 : tryFormat ⟨DField.mon, DField.day, DField.year, '-'⟩
          (pad2 d ++ (('-' :: monFullsCap.getD (5 - 1) []) ++ ('-' :: pad4 y))) = none := by
        unfold tryFormat
        dsimp only
        rw [splitOn_three '-' _ _ _ (pad2_not_mem d (by omega) '-' hdig_dash)
          hF_ndash (pad4_not_mem y (by omega) '-' hdig_dash)]
        dsimp only
        rw [hF_day]
        rcases parseField DField.mon (pad2 d) with _ | v <;> rfl
      have htf4 : tryFormat ⟨DField.mon, DField.day, DField.year, '/'⟩
          (pad2 d ++ (('-' :: monFullsCap.getD (5 - 1) []) ++ ('-' :: pad4 y))) = none :=
        tryFormat_nosep _ _ (not_mem_token '/' '-' (by decide) _ _ _
          (pad2_not_mem d (by omega) '/' hdig_slash) hF_nslash (pad4_not_mem y (by omega) '/' hdig_slash))
      have htf5 : tryFormat ⟨DField.year, DField.mon, DField.day, '-'⟩
          (pad2 d ++ (('-' :: monFullsCap.getD (5 - 1) []) ++ ('-' :: pad4 y))) = none := by
        unfold tryFormat
        dsimp only
        rw [splitOn_three '-' _ _ _ (pad2_not_mem d (by omega) '-' hdig_dash)
          hF_ndash (pad4_not_mem y (by omega) '-' hdig_dash)]
        dsimp only
        rw [parseField_year_pad2_none d]
      have htf6 : tryFormat ⟨DField.year, DField.mon, DField.day, '/'⟩
          (pad2 d ++ (('-' :: monFullsCap.getD (5 - 1) []) ++ ('-' :: pad4 y))) = none :=
        tryFormat_nosep _ _ (not_mem_token '/' '-' (by decide) _ _ _
          (pad2_not_mem d (by omega) '/' hdig_slash) hF_nslash (pad4_not_mem y (by omega) '/' hdig_slash))
      have htf7 : tryFormat ⟨DField.day, DField.monAbbr, DField.year, '-'⟩
          (pad2 d ++ (('-' :: monFullsCap.getD (5 - 1) []) ++ ('-' :: pad4 y)))
          = some (y, 5, d) := by
        unfold tryFormat
        dsimp only
        rw [splitOn_three '-' _ _ _ (pad2_not_mem d (by omega) '-' hdig_dash)
          hF_ndash (pad4_not_mem y (by omega) '-' hdig_dash)]
        dsimp only
        rw [parseField_day_pad2 d hd1 hd31, hF_abbr, if_pos (rfl : 5 = 5), parseField_year_pad4 y h9999]
        show (if 1 ≤ y ∧ y ≤ 9999 ∧ 1 ≤ 5 ∧ 5 ≤ 12 ∧ 1 ≤ d ∧ d ≤ daysInMonth y 5
            then some (y, 5, d) else none) = some (y, 5, d)
        rw [if_pos ⟨by omega, h9999, by omega, by omega, hd1, hdm⟩]
      unfold parse_date
      simp only [date_formats, tryFormats, hstrip, htf1, htf2, htf3, htf4, htf5, htf6, htf7]
      rfl
    · have hfd : formatDate ⟨DField.day, DField.monFull, DField.year, '-'⟩ y m d
          = pad2 d ++ (('-' :: monFullsCap.getD (m - 1) []) ++ ('-' :: pad4 y)) := by
        unfold formatDate fieldStr
        dsimp only
        try rw [hofs]
        try rw [List.append_assoc]
        try rw [List.cons_append]
        try rfl
      rw [hfd]
      have hstrip : pyStrip (pad2 d ++ (('-' :: monFullsCap.getD (m - 1) []) ++ ('-' :: pad4 y)))
          = pad2 d ++ (('-' :: monFullsCap.getD (m - 1) []) ++ ('-' :: pad4 y)) :=
        pyStrip_id_of _ (token_nospace '-' (by decide) _ _ _
          (pad2_nospace d (by omega)) hF_nospace (pad4_nospace y (by omega)))
      have htf1 : tryFormat ⟨DField.day, DField.mon, DField.year, '-'⟩
          (pad2 d ++ (('-' :: monFullsCap.getD (m - 1) []) ++ ('-' :: pad4 y))) = none := by
        unfold tryFormat
        dsimp only
        rw [splitOn_three '-' _ _ _ (pad2_not_mem d (by omega) '-' hdig_dash)
          hF_ndash (pad4_not_mem y (by omega) '-' hdig_dash)]
        dsimp only
        rw [parseField_day_pad2 d hd1 hd31, hF_mon]
      have htf2 : tryFormat ⟨DField.day, DField.mon, DField.year, '/'⟩
          (pad2 d ++ (('-' :: monFullsCap.getD (m - 1) []) ++ ('-' :: pad4 y))) = none :=
        tryFormat_nosep _ _ (not_mem_token '/' '-' (by decide) _ _ _
          (pad2_not_mem d (by omega) '/' hdig_slash) hF_nslash (pad4_not_mem y (by omega) '/' hdig_slash))
      have htf3 : tryFormat ⟨DField.mon, DField.day, DField.year, '-'⟩
          (pad2 d ++ (('-' :: monFullsCap.getD (m - 1) []) ++ ('-' :: pad4 y))) = none := by
        unfold tryFormat
        dsimp only
        rw [splitOn_three '-' _ _ _ (pad2_not_mem d (by omega) '-' hdig_dash)
          hF_ndash (pad4_not_mem y (by omega) '-' hdig_dash)]
        dsimp only
        rw [hF_day]
        rcases parseField DField.mon (pad2 d) with _ | v <;> rfl
      have htf4 : tryFormat ⟨DField.mon, DField.day, DField.year, '/'⟩
          (pad2 d ++ (('-' :: monFullsCap.getD (m - 1) []) ++ ('-' :: pad4 y))) = none :=
        tryFormat_nosep _ _ (not_mem_token '/' '-' (by decide) _ _ _
          (pad2_not_mem d (by omega) '/' hdig_slash) hF_nslash (pad4_not_mem y (by omega) '/' hdig_slash))
      have htf5 : tryFormat ⟨DField.year, DField.mon, DField.day, '-'⟩
          (pad2 d ++ (('-' :: monFullsCap.getD (m - 1) []) ++ ('-' :: pad4 y))) = none := by
        unfold tryFormat
        dsimp only
        rw [splitOn_three '-' _ _ _ (pad2_not_mem d (by omega) '-' hdig_dash)
          hF_ndash (pad4_not_mem y (by omega) '-' hdig_dash)]
        dsimp only
        rw [parseField_year_pad2_none d]
      have htf6 : tryFormat ⟨DField.year, DField.mon, DField.day, '/'⟩
          (pad2 d ++ (('-' :: monFullsCap.getD (m - 1) []) ++ ('-' :: pad4 y))) = none :=
        tryFormat_nosep _ _ (not_mem_token '/' '-' (by decide) _ _ _
          (pad2_not_mem d (by omega) '/' hdig_slash) hF_nslash (pad4_not_mem y (by omega) '/' hdig_slash))
      have htf7 : tryFormat ⟨DField.day, DField.monAbbr, DField.year, '-'⟩
          (pad2 d ++ (('-' :: monFullsCap.getD (m - 1) []) ++ ('-' :: pad4 y))) = none := by
        unfold tryFormat
        dsimp only
        rw [splitOn_three '-' _ _ _ (pad2_not_mem d (by omega) '-' hdig_dash)
          hF_ndash (pad4_not_mem y (by omega) '-' hdig_dash)]
        dsimp only
        rw [parseField_day_pad2 d hd1 hd31, hF_abbr, if_neg hm5]
      have htf8 : tryFormat ⟨DField.day, DField.monAbbr, DField.year, '/'⟩
          (pad2 d ++ (('-' :: monFullsCap.getD (m - 1) []) ++ ('-' :: pad4 y))) = none :=
        tryFormat_nosep _ _ (not_mem_token '/' '-' (by decide) _ _ _
          (pad2_not_mem d (by omega) '/' hdig_slash) hF_nslash (pad4_not_mem y (by omega) '/' hdig_slash))
      have htf9 : tryFormat ⟨DField.monAbbr, DField.day, DField.year, '-'⟩
          (pad2 d ++ (('-' :: monFullsCap.getD (m - 1) []) ++ ('-' :: pad4 y))) = none := by
        unfold tryFormat
        dsimp only
        rw [splitOn_three '-' _ _ _ (pad2_not_mem d (by omega) '-' hdig_dash)
          hF_ndash (pad4_not_mem y (by omega) '-' hdig_dash)]
        dsimp only
        rw [parseField_monAbbr_pad2_none d]
      have htf10 : tryFormat ⟨DField.monAbbr, DField.day, DField.year, '/'⟩
          (pad2 d ++ (('-' :: monFullsCap.getD (m - 1) []) ++ ('-' :: pad4 y))) = none :=
        tryFormat_nosep _ _ (not_mem_token '/' '-' (by decide) _ _ _
          (pad2_not_mem d (by omega) '/' hdig_slash) hF_nslash (pad4_not_mem y (by omega) '/' hdig_slash))
      have htf11 : tryFormat ⟨DField.day, DField.monFull, DField.year, '-'⟩
          (pad2 d ++ (('-' :: monFullsCap.getD (m - 1) []) ++ ('-' :: pad4 y)))
          = some (y, m, d) := by
        unfold tryFormat
        dsimp only
        rw [splitOn_three '-' _ _ _ (pad2_not_mem d (by omega) '-' hdig_dash)
          hF_ndash (pad4_not_mem y (by omega) '-' hdig_dash)]
        dsimp only
        rw [parseField_day_pad2 d hd1 hd31, hF_full, parseField_year_pad4 y h9999]
        show (if 1 ≤ y ∧ y ≤ 9999 ∧ 1 ≤ m ∧ m ≤ 12 ∧ 1 ≤ d ∧ d ≤ daysInMonth y m
            then some (y, m, d) else none) = some (y, m, d)
        rw [if_pos ⟨by omega, h9999, hm1, hm12, hd1, hdm⟩]
      unfold parse_date
      simp only [date_formats, tryFormats, hstrip, htf1, htf2, htf3, htf4, htf5, htf6, htf7, htf8, htf9, htf10, htf11]
      rfl
  · by_cases hm5 : m = 5
    · subst hm5
      have hfd : formatDate ⟨DField.day, DField.monFull, DField.year, '/'⟩ y 5 d
          = pad2 d ++ (('/' :: monFullsCap.getD (5 - 1) []) ++ ('/' :: pad4 y)) := by
        unfold formatDate fieldStr
        dsimp only
        try rw [hofs]
        try rw [List.append_assoc]
        try rw [List.cons_append]
        try rfl
      rw [hfd]
      have hstrip : pyStrip (pad2 d ++ (('/' :: monFullsCap.getD (5 - 1) []) ++ ('/' :: pad4 y)))
          = pad2 d ++ (('/' :: monFullsCap.getD (5 - 1) []) ++ ('/' :: pad4 y)) :=
        pyStrip_id_of _ (token_nospace '/' (by decide) _ _ _
          (pad2_nospace d (by omega)) hF_nospace (pad4_nospace y (by omega)))
      have htf1 : tryFormat ⟨DField.day, DField.mon, DField.year, '-'⟩
          (pad2 d ++ (('/' :: monFullsCap.getD (5 - 1) []) ++ ('/' :: pad4 y))) = none :=
        tryFormat_nosep _ _ (not_mem_token '-' '/' (by decide) _ _ _
          (pad2_not_mem d (by omega) '-' hdig_dash) hF_ndash (pad4_not_mem y (by omega) '-' hdig_dash))
      have htf2 : tryFormat ⟨DField.day, DField.mon, DField.year, '/'⟩
          (pad2 d ++ (('/' :: monFullsCap.getD (5 - 1) []) ++ ('/' :: pad4 y))) = none := by
        unfold tryFormat
        dsimp only
        rw [splitOn_three '/' _ _ _ (pad2_not_mem d (by omega) '/' hdig_slash)
          hF_nslash (pad4_not_mem y (by omega) '/' hdig_slash)]
        dsimp only
        rw [parseField_day_pad2 d hd1 hd31, hF_mon]
      have htf3 : tryFormat ⟨DField.mon, DField.day, DField.year, '-'⟩
          (pad2 d ++ (('/' :: monFullsCap.getD (5 - 1) []) ++ ('/' :: pad4 y))) = none :=
        tryFormat_nosep _ _ (not_mem_token '-' '/' (by decide) _ _ _
          (pad2_not_mem d (by omega) '-' hdig_dash) hF_ndash (pad4_not_mem y (by omega) '-' hdig_dash))
      have htf4 : tryFormat ⟨DField.mon, DField.day, DField.year, '/'⟩
          (pad2 d ++ (('/' :: monFullsCap.getD (5 - 1) []) ++ ('/' :: pad4 y))) = none := by
        unfold tryFormat
        dsimp only
        rw [splitOn_three '/' _ _ _ (pad2_not_mem d (by omega) '/' hdig_slash)
          hF_nslash (pad4_not_mem y (by omega) '/' hdig_slash)]
        dsimp only
        rw [hF_day]
        rcases parseField DField.mon (pad2 d) with _ | v <;> rfl
      have htf5 : tryFormat ⟨DField.year, DField.mon, DField.day, '-'⟩
          (pad2 d ++ (('/' :: monFullsCap.getD (5 - 1) []) ++ ('/' :: pad4 y))) = none :=
        tryFormat_nosep _ _ (not_mem_token '-' '/' (by decide) _ _ _
          (pad2_not_mem d (by omega) '-' hdig_dash) hF_ndash (pad4_not_mem y (by omega) '-' hdig_dash))
      have htf6 : tryFormat ⟨DField.year, DField.mon, DField.day, '/'⟩
          (pad2 d ++ (('/' :: monFullsCap.getD (5 - 1) []) ++ ('/' :: pad4 y))) = none := by
        unfold tryFormat
        dsimp only
        rw [splitOn_three '/' _ _ _ (pad2_not_mem d (by omega) '/' hdig_slash)
          hF_nslash (pad4_not_mem y (by omega) '/' hdig_slash)]
        dsimp only
        rw [parseField_year_pad2_none d]
      have htf7 : tryFormat ⟨DField.day, DField.monAbbr, DField.year, '-'⟩
          (pad2 d ++ (('/' :: monFullsCap.getD (5 - 1) []) ++ ('/' :: pad4 y))) = none :=
        tryFormat_nosep _ _ (not_mem_token '-' '/' (by decide) _ _ _
          (pad2_not_mem d (by omega) '-' hdig_dash) hF_ndash (pad4_not_mem y (by omega) '-' hdig_dash))
      have htf8 : tryFormat ⟨DField.day, DField.monAbbr, DField.year, '/'⟩
          (pad2 d ++ (('/' :: monFullsCap.getD (5 - 1) []) ++ ('/' :: pad4 y)))
          = some (y, 5, d) := by
        unfold tryFormat
        dsimp only
        rw [splitOn_three '/' _ _ _ (pad2_not_mem d (by omega) '/' hdig_slash)
          hF_nslash (pad4_not_mem y (by omega) '/' hdig_slash)]
        dsimp only
        rw [parseField_day_pad2 d hd1 hd31, hF_abbr, if_pos (rfl : 5 = 5), parseField_year_pad4 y h9999]
        show (if 1 ≤ y ∧ y ≤ 9999 ∧ 1 ≤ 5 ∧ 5 ≤ 12 ∧ 1 ≤ d ∧ d ≤ daysInMonth y 5
            then some (y, 5, d) else none) = some (y, 5, d)
        rw [if_pos ⟨by omega, h9999, by omega, by omega, hd1, hdm⟩]
      unfold parse_date
      simp only [date_formats, tryFormats, hstrip, htf1, htf2, htf3, htf4, htf5, htf6, htf7, htf8]
      rfl
    · have hfd : formatDate ⟨DField.day, DField.monFull, DField.year, '/'⟩ y m d
          = pad2 d ++ (('/' :: monFullsCap.getD (m - 1) []) ++ ('/' :: pad4 y)) := by
        unfold formatDate fieldStr
        dsimp only
        try rw [hofs]
        try rw [List.append_assoc]
        try rw [List.cons_append]
        try rfl
      rw [hfd]
      have hstrip : pyStrip (pad2 d ++ (('/' :: monFullsCap.getD (m - 1) []) ++ ('/' :: pad4 y)))
          = pad2 d ++ (('/' :: monFullsCap.getD (m - 1) []) ++ ('/' :: pad4 y)) :=
        pyStrip_id_of _ (token_nospace '/' (by decide) _ _ _
          (pad2_nospace d (by omega)) hF_nospace (pad4_nospace y (by omega)))
      have htf1 : tryFormat ⟨DField.day, DField.mon, DField.year, '-'⟩
          (pad2 d ++ (('/' :: monFullsCap.getD (m - 1) []) ++ ('/' :: pad4 y))) = none :=
        tryFormat_nosep _ _ (not_mem_token '-' '/' (by decide) _ _ _
          (pad2_not_mem d (by omega) '-' hdig_dash) hF_ndash (pad4_not_mem y (by omega) '-' hdig_dash))
      have htf2 : tryFormat ⟨DField.day, DField.mon, DField.year, '/'⟩
          (pad2 d ++ (('/' :: monFullsCap.getD (m - 1) []) ++ ('/' :: pad4 y))) = none := by
        unfold tryFormat
        dsimp only
        rw [splitOn_three '/' _ _ _ (pad2_not_mem d (by omega) '/' hdig_slash)
          hF_nslash (pad4_not_mem y (by omega) '/' hdig_slash)]
        dsimp only
        rw [parseField_day_pad2 d hd1 hd31, hF_mon]
      have htf3 : tryFormat ⟨DField.mon, DField.day, DField.year, '-'⟩
          (pad2 d ++ (('/' :: monFullsCap.getD (m - 1) []) ++ ('/' :: pad4 y))) = none :=
        tryFormat_nosep _ _ (not_mem_token '-' '/' (by decide) _ _ _
          (pad2_not_mem d (by omega) '-' hdig_dash) hF_ndash (pad4_not_mem y (by omega) '-' hdig_dash))
      have htf4 : tryFormat ⟨DField.mon, DField.day, DField.year, '/'⟩
          (pad2 d ++ (('/' :: monFullsCap.getD (m - 1) []) ++ ('/' :: pad4 y))) = none := by
        unfold tryFormat
        dsimp only
        rw [splitOn_three '/' _ _ _ (pad2_not_mem d (by omega) '/' hdig_slash)
          hF_nslash (pad4_not_mem y (by omega) '/' hdig_slash)]
        dsimp only
        rw [hF_day]
        rcases parseField DField.mon (pad2 d) with _ | v <;> rfl
      have htf5 : tryFormat ⟨DField.year, DField.mon, DField.day, '-'⟩
          (pad2 d ++ (('/' :: monFullsCap.getD (m - 1) []) ++ ('/' :: pad4 y))) = none :=
        tryFormat_nosep _ _ (not_mem_token '-' '/' (by decide) _ _ _
          (pad2_not_mem d (by omega) '-' hdig_dash) hF_ndash (pad4_not_mem y (by omega) '-' hdig_dash))
      have htf6 : tryFormat ⟨DField.year, DField.mon, DField.day, '/'⟩
          (pad2 d ++ (('/' :: monFullsCap.getD (m - 1) []) ++ ('/' :: pad4 y))) = none := by
        unfold tryFormat
        dsimp only
        rw [splitOn_three '/' _ _ _ (pad2_not_mem d (by omega) '/' hdig_slash)
          hF_nslash (pad4_not_mem y (by omega) '/' hdig_slash)]
        dsimp only
        rw [parseField_year_pad2_none d]
      have htf7 : tryFormat ⟨DField.day, DField.monAbbr, DField.year, '-'⟩
          (pad2 d ++ (('/' :: monFullsCap.getD (m - 1) []) ++ ('/' :: pad4 y))) = none :=
        tryFormat_nosep _ _ (not_mem_token '-' '/' (by decide) _ _ _
          (pad2_not_mem d (by omega) '-' hdig_dash) hF_ndash (pad4_not_mem y (by omega) '-' hdig_dash))
      have htf8 : tryFormat ⟨DField.day, DField.monAbbr, DField.year, '/'⟩
          (pad2 d ++ (('/' :: monFullsCap.getD (m - 1) []) ++ ('/' :: pad4 y))) = none := by
        unfold tryFormat
        dsimp only
        rw [splitOn_three '/' _ _ _ (pad2_not_mem d (by omega) '/' hdig_slash)
          hF_nslash (pad4_not_mem y (by omega) '/' hdig_slash)]
        dsimp only
        rw [parseField_day_pad2 d hd1 hd31, hF_abbr, if_neg hm5]
      have htf9 : tryFormat ⟨DField.monAbbr, DField.day, DField.year, '-'⟩
          (pad2 d ++ (('/' :: monFullsCap.getD (m - 1) []) ++ ('/' :: pad4 y))) = none :=
        tryFormat_nosep _ _ (not_mem_token '-' '/' (by decide) _ _ _
          (pad2_not_mem d (by omega) '-' hdig_dash) hF_ndash (pad4_not_mem y (by omega) '-' hdig_dash))
      have htf10 : tryFormat ⟨DField.monAbbr, DField.day, DField.year, '/'⟩
          (pad2 d ++ (('/' :: monFullsCap.getD (m - 1) []) ++ ('/' :: pad4 y))) = none := by
        unfold tryFormat
        dsimp only
        rw [splitOn_three '/' _ _ _ (pad2_not_mem d (by omega) '/' hdig_slash)
          hF_nslash (pad4_not_mem y (by omega) '/' hdig_slash)]
        dsimp only
        rw [parseField_monAbbr_pad2_none d]
      have htf11 : tryFormat ⟨DField.day, DField.monFull, DField.year, '-'⟩
          (pad2 d ++ (('/' :: monFullsCap.getD (m - 1) []) ++ ('/' :: pad4 y))) = none :=
        tryFormat_nosep _ _ (not_mem_token '-' '/' (by decide) _ _ _
          (pad2_not_mem d (by omega) '-' hdig_dash) hF_ndash (pad4_not_mem y (by omega) '-' hdig_dash))
      have htf12 : tryFormat ⟨DField.day, DField.monFull, DField.year, '/'⟩
          (pad2 d ++ (('/' :: monFullsCap.getD (m - 1) []) ++ ('/' :: pad4 y)))
          = some (y, m, d) := by
        unfold tryFormat
        dsimp only
        rw [splitOn_three '/' _ _ _ (pad2_not_mem d (by omega) '/' hdig_slash)
          hF_nslash (pad4_not_mem y (by omega) '/' hdig_slash)]
        dsimp only
        rw [parseField_day_pad2 d hd1 hd31, hF_full, parseField_year_pad4 y h9999]
        show (if 1 ≤ y ∧ y ≤ 9999 ∧ 1 ≤ m ∧ m ≤ 12 ∧ 1 ≤ d ∧ d ≤ daysInMonth y m
            then some (y, m, d) else none) = some (y, m, d)
        rw [if_pos ⟨by omega, h9999, hm1, hm12, hd1, hdm⟩]
      unfold parse_date
      simp only [date_formats, tryFormats, hstrip, htf1, htf2, htf3, htf4, htf5, htf6, htf7, htf8, htf9, htf10, htf11, htf12]
      rfl

set_option maxRecDepth 10000 in
/-- **C4, counterexample.** The month-first pattern is in the supported
list; formatting 2024-01-02 with it gives the token `01-02-2024`, but
normalizing that token returns `2024-02-01` (the day-first pattern,
earlier in the list, wins), not the ISO form of the original date. -/
theorem C4_roundtrip_counterexample :
    (⟨DField.mon, DField.day, DField.year, '-'⟩ : DFormat) ∈ date_formats ∧
    formatDate ⟨DField.mon, DField.day, DField.year, '-'⟩ 2024 1 2 = ofStr "01-02-2024" ∧
    parse_date (formatDate ⟨DField.mon, DField.day, DField.year, '-'⟩ 2024 1 2)
      = some (ofStr "2024-02-01") ∧
    parse_date (formatDate ⟨DField.mon, DField.day, DField.year, '-'⟩ 2024 1 2)
      ≠ some (isoStr 2024 1 2) := by decide

set_option maxRecDepth 10000 in
/-- Witness for the amended round-trip statement at 13 May 2024 in the
day-first dashed pattern. -/
theorem C4_roundtrip_witness :
    parse_date (formatDate ⟨DField.day, DField.mon, DField.year, '-'⟩ 2024 5 13)
      = some (isoStr 2024 5 13) :=
  C4_roundtrip_amended ⟨DField.day, DField.mon, DField.year, '-'⟩ (by decide) 2024 5 13
    (by decide) (by decide) (by decide) (by decide) (by decide) (by decide)
    (fun h => absurd h.1 (by decide))

end BankConv
